import Mathlib

/-!
# Verification of the Dialectic subnet adjudication core

Shallow embedding of the three core modules of the repository
(`src/merkle.py`, `src/challenge.py`, `src/consensus.py`) and proofs about
the claims of the specification.

Modelling conventions:
* Python `float` stake/reputation/confidence arithmetic is embedded as exact
  rational arithmetic over `ℚ` (the spec fixes the tables as exact rational
  formulas and the code only performs `+ - * / min max` on them).
* `datetime` instants are embedded as integer epoch seconds (`ℤ`); durations
  given in hours in the source become `hours * 3600` seconds.
  `timedelta.days` is floor division by 86400 (`Int.fdiv`).
* Python `dict`s become association lists with first-occurrence lookup and
  in-place replacement on insert, which matches CPython's insertion-ordered
  dictionary semantics.
* SHA-256 digests are embedded as the free term algebra `HashV` over the
  hashing operations of `src/merkle.py`: `hstr` for `hash_data` on a raw
  string, `hnode` for `hash_node` of a reasoning node, `hcomb` for
  `combine_hashes`.  Every equality between such terms proved here is
  preserved by evaluating the terms with the concrete SHA-256 function, so
  the positive statements proved below hold of the real code.
-/

namespace Dialectic

/-! ## Association-list dictionaries (CPython `dict` semantics) -/

/-- Lookup of the first binding of a key (Python `d.get(k)`). -/
def dictGet {α β : Type} [DecidableEq α] : List (α × β) → α → Option β
  | [], _ => none
  | (k', v') :: rest, k => if k' = k then some v' else dictGet rest k

/-- `d[k] = v`: replace the binding in place if the key exists, else append. -/
def dictInsert {α β : Type} [DecidableEq α] : List (α × β) → α → β → List (α × β)
  | [], k, v => [(k, v)]
  | (k', v') :: rest, k, v =>
      if k' = k then (k, v) :: rest else (k', v') :: dictInsert rest k v

/-! ## `src/protocol.py`: enumerations and the attack-multiplier table -/

/-- `NodeType` from `src/protocol.py`. -/
inductive NodeType where
  | conclusion | premise | sub_premise | rebuttal | qualifier
deriving DecidableEq, Repr

/-- `AttackType` from `src/protocol.py`. -/
inductive AttackType where
  | factual_error | logical_fallacy | missing_context | contradiction | outdated
deriving DecidableEq, Repr

/-- `DefenseType` from `src/protocol.py` (its `PARTIAL` member is written
`partial_v` because `partial` is a Lean keyword). -/
inductive DefenseType where
  | refute | concede | partial_v
deriving DecidableEq, Repr

/-- `Verdict` from `src/protocol.py` (its `PARTIAL` member is written
`partial_v` because `partial` is a Lean keyword). -/
inductive Verdict where
  | challenge_upheld | challenge_rejected | partial_v | abstain
deriving DecidableEq, Repr

/-- `ATTACK_MULTIPLIERS` from `src/protocol.py`. -/
def ATTACK_MULTIPLIERS : AttackType → ℚ
  | .factual_error => 2
  | .logical_fallacy => 5/2
  | .missing_context => 3/2
  | .contradiction => 3
  | .outdated => 3/2

/-- `Evidence` from `src/protocol.py`. -/
structure Evidence where
  source : String
  data : String
  url : Option String := none
  timestamp : Option String := none
deriving DecidableEq, Repr

/-- `ReasoningNode` from `src/protocol.py`. -/
structure RNode where
  id : String
  claim : String
  node_type : NodeType
  evidence : Option Evidence := none
  children : List String := []
  merkle_hash : Option String := none
deriving DecidableEq, Repr

/-- `ReasoningTree` from `src/protocol.py`.  The `submitted_at` ISO timestamp
is embedded directly as an instant in epoch seconds (parsing is a
collaborator's concern). -/
structure ReasoningTree where
  task_id : String
  root : RNode
  nodes : List RNode := []
  merkle_root : String
  stake : ℚ
  proposer_hotkey : String
  submitted_at : Option ℤ := none
deriving DecidableEq, Repr

/-- `ChallengeSubmission` from `src/protocol.py` (request fields only; the
response fields filled in by the validator are not part of the core). -/
structure ChallengeSubmission where
  task_id : String
  target_node : String
  attack_type : AttackType
  argument : String
  evidence : Option Evidence := none
  stake : ℚ
  challenger_hotkey : String
deriving DecidableEq, Repr

/-- `DefenseSubmission` from `src/protocol.py` (request fields only). -/
structure DefenseSubmission where
  dispute_id : String
  defense_type : DefenseType
  response : String
  evidence : Option Evidence := none
  affected_nodes : List String := []
  tree_still_valid : Option Bool := none
deriving DecidableEq, Repr

/-! ## `src/challenge.py`: the dispute manager -/

/-- `CHALLENGE_WINDOW_HOURS` from `src/challenge.py`. -/
def CHALLENGE_WINDOW_HOURS : ℤ := 6

/-- `DEFENSE_WINDOW_HOURS` from `src/challenge.py`. -/
def DEFENSE_WINDOW_HOURS : ℤ := 2

/-- `MIN_CHALLENGE_STAKE_RATIO` from `src/challenge.py`. -/
def MIN_CHALLENGE_STAKE_RATIO : ℚ := 1/10

/-- `PROPOSER_SLASH_RATE` from `src/challenge.py`. -/
def PROPOSER_SLASH_RATE : ℚ := 30/100

/-- `CHALLENGER_SLASH_RATE` from `src/challenge.py`. -/
def CHALLENGER_SLASH_RATE : ℚ := 50/100

/-- `DisputeStatus` from `src/challenge.py`. -/
inductive DisputeStatus where
  | pending_defense | pending_adjudication | resolved | expired
deriving DecidableEq, Repr

/-- `Dispute` from `src/challenge.py`. -/
structure Dispute where
  dispute_id : String
  task_id : String
  target_node_id : String
  proposer_hotkey : String
  challenger_hotkey : String
  proposer_stake : ℚ
  challenger_stake : ℚ
  attack_type : AttackType
  challenge_argument : String
  challenge_evidence : Option Evidence := none
  defense : Option DefenseSubmission := none
  defense_deadline : Option ℤ := none
  status : DisputeStatus := .pending_defense
  verdict : Option Verdict := none
  created_at : ℤ := 0
  resolved_at : Option ℤ := none
  proposer_payout : ℚ := 0
  challenger_payout : ℚ := 0
  proposer_reputation_delta : ℚ := 0
  challenger_reputation_delta : ℚ := 0
deriving DecidableEq, Repr

/-- The mutable state of `ChallengeManager` from `src/challenge.py`. -/
structure ChallengeManager where
  disputes : List (String × Dispute) := []
  tree_challenges : List (String × List String) := []
  dispute_counter : Nat := 0
deriving DecidableEq, Repr

/-- The duplicate-challenge scan inside `ChallengeManager.validate_challenge`:
some unresolved dispute of the task already targets this node. -/
def hasActiveDuplicate (mgr : ChallengeManager) (task_id target : String) : Bool :=
  ((dictGet mgr.tree_challenges task_id).getD []).any (fun did =>
    match dictGet mgr.disputes did with
    | some d => d.target_node_id == target && !(d.status == DisputeStatus.resolved)
    | none => false)

/-- `ChallengeManager.validate_challenge` (error messages are embedded without
their interpolated values).  `now` stands for `datetime.utcnow()`. -/
def validateChallenge (mgr : ChallengeManager) (challenge : ChallengeSubmission)
    (tree : ReasoningTree) (now : ℤ) : Bool × Option String :=
  let node_ids := tree.root.id :: tree.nodes.map RNode.id
  if challenge.target_node ∉ node_ids then
    (false, some "Target node not found in tree")
  else
    let min_stake := tree.stake * MIN_CHALLENGE_STAKE_RATIO
    if challenge.stake < min_stake then
      (false, some "Challenge stake below minimum")
    else
      let windowClosed :=
        match tree.submitted_at with
        | some submitted => decide (now > submitted + CHALLENGE_WINDOW_HOURS * 3600)
        | none => false
      if windowClosed then
        (false, some "Challenge window has closed")
      else if hasActiveDuplicate mgr tree.task_id challenge.target_node then
        (false, some "Node already has active challenge")
      else
        (true, none)

/-- `ChallengeManager.create_dispute`. -/
def createDispute (mgr : ChallengeManager) (challenge : ChallengeSubmission)
    (tree : ReasoningTree) (now : ℤ) : ChallengeManager × Dispute :=
  let counter := mgr.dispute_counter + 1
  let did := "disp_" ++ tree.task_id ++ "_" ++ toString counter
  let d : Dispute :=
    { dispute_id := did
      task_id := tree.task_id
      target_node_id := challenge.target_node
      proposer_hotkey := tree.proposer_hotkey
      challenger_hotkey := challenge.challenger_hotkey
      proposer_stake := tree.stake
      challenger_stake := challenge.stake
      attack_type := challenge.attack_type
      challenge_argument := challenge.argument
      challenge_evidence := challenge.evidence
      defense_deadline := some (now + DEFENSE_WINDOW_HOURS * 3600)
      status := .pending_defense
      created_at := now }
  ({ mgr with
      dispute_counter := counter
      disputes := dictInsert mgr.disputes did d
      tree_challenges := dictInsert mgr.tree_challenges tree.task_id
        ((dictGet mgr.tree_challenges tree.task_id).getD [] ++ [did]) },
   d)

/-- `ChallengeManager.submit_defense`.  The deadline comparison mirrors
`datetime.utcnow() > dispute.defense_deadline`; every dispute produced by
`create_dispute` carries a deadline, so the `none` branch is unreachable on
the modelled flows. -/
def submitDefense (mgr : ChallengeManager) (dispute_id : String)
    (defense : DefenseSubmission) (now : ℤ) :
    ChallengeManager × Bool × Option String :=
  match dictGet mgr.disputes dispute_id with
  | none => (mgr, false, some "Dispute not found")
  | some d =>
      if d.status ≠ DisputeStatus.pending_defense then
        (mgr, false, some "Dispute not accepting defenses")
      else if d.defense_deadline.elim false (fun dl => decide (now > dl)) then
        (mgr, false, some "Defense window has expired")
      else
        let d' := { d with defense := some defense,
                           status := DisputeStatus.pending_adjudication }
        ({ mgr with disputes := dictInsert mgr.disputes dispute_id d' },
         true, none)

/-- `ChallengeManager._resolve_no_defense` (the record update part; the
status/verdict/timestamp assignments of the method are included). -/
def resolveNoDefense (d : Dispute) (now : ℤ) : Dispute :=
  let multiplier := ATTACK_MULTIPLIERS d.attack_type
  let base_reward := d.challenger_stake * multiplier
  let proposer_slash :=
    min (d.proposer_stake * (PROPOSER_SLASH_RATE * (3/2))) d.proposer_stake
  { d with
      status := .resolved
      verdict := some .challenge_upheld
      resolved_at := some now
      challenger_payout := base_reward + proposer_slash
      proposer_payout := -proposer_slash
      proposer_reputation_delta := -(15/100)
      challenger_reputation_delta := 5/100 }

/-- The sweep condition of `ChallengeManager.check_expired_defenses`:
status is pending-defense and a deadline exists and lies strictly before
`now`. -/
def expiredPending (d : Dispute) (now : ℤ) : Bool :=
  d.status == DisputeStatus.pending_defense &&
    (match d.defense_deadline with
     | some dl => decide (now > dl)
     | none => false)

/-- `ChallengeManager.check_expired_defenses`: auto-resolve every matching
dispute and return the list of their identifiers. -/
def checkExpiredDefenses (mgr : ChallengeManager) (now : ℤ) :
    ChallengeManager × List String :=
  let step := mgr.disputes.foldl
    (fun (acc : List (String × Dispute) × List String) kv =>
      if expiredPending kv.2 now then
        (acc.1 ++ [(kv.1, resolveNoDefense kv.2 now)], acc.2 ++ [kv.1])
      else
        (acc.1 ++ [kv], acc.2))
    ([], [])
  ({ mgr with disputes := step.1 }, step.2)

/-- `ChallengeManager._resolve_challenger_wins`. -/
def resolveChallengerWins (d : Dispute) (confidence : ℚ) : Dispute :=
  let multiplier := ATTACK_MULTIPLIERS d.attack_type
  let base_reward := d.challenger_stake * multiplier * confidence
  let proposer_slash := d.proposer_stake * PROPOSER_SLASH_RATE * confidence
  { d with
      challenger_payout := base_reward + proposer_slash
      proposer_payout := -proposer_slash
      proposer_reputation_delta := -(10/100) * confidence
      challenger_reputation_delta := (5/100) * confidence }

/-- `ChallengeManager._resolve_proposer_wins`. -/
def resolveProposerWins (d : Dispute) (confidence : ℚ) : Dispute :=
  let challenger_slash := d.challenger_stake * CHALLENGER_SLASH_RATE * confidence
  let proposer_recovery := challenger_slash * (6/10)
  { d with
      challenger_payout := -challenger_slash
      proposer_payout := proposer_recovery
      proposer_reputation_delta := (2/100) * confidence
      challenger_reputation_delta := -(5/100) * confidence }

/-- `ChallengeManager._resolve_partial`. -/
def resolvePartialVerdict (d : Dispute) (confidence : ℚ) : Dispute :=
  let partial_factor : ℚ := 1/2
  let multiplier := ATTACK_MULTIPLIERS d.attack_type
  let challenger_reward :=
    d.challenger_stake * multiplier * partial_factor * confidence
  let proposer_slash :=
    d.proposer_stake * PROPOSER_SLASH_RATE * partial_factor * confidence
  { d with
      challenger_payout :=
        challenger_reward + proposer_slash - d.challenger_stake * (2/10)
      proposer_payout := -proposer_slash
      proposer_reputation_delta := -(3/100) * confidence
      challenger_reputation_delta := (1/100) * confidence }

/-- `ChallengeManager.resolve_dispute`.  The returned `Option Dispute` stands
for the resolution-summary dictionary (it carries the verdict and all four
computed deltas); `none` corresponds to the `"error"` dictionary. -/
def resolveDispute (mgr : ChallengeManager) (now : ℤ) (dispute_id : String)
    (verdict : Verdict) (confidence : ℚ) : ChallengeManager × Option Dispute :=
  match dictGet mgr.disputes dispute_id with
  | none => (mgr, none)
  | some d =>
      let d1 := { d with
        status := DisputeStatus.resolved
        verdict := some verdict
        resolved_at := some now }
      let d2 :=
        match verdict with
        | .challenge_upheld => resolveChallengerWins d1 confidence
        | .challenge_rejected => resolveProposerWins d1 confidence
        | .partial_v => resolvePartialVerdict d1 confidence
        | .abstain => d1
      ({ mgr with disputes := dictInsert mgr.disputes dispute_id d2 }, some d2)

/-- The four settled outcome numbers of a resolution summary, in the order
(challenger payout, proposer payout, Δrep proposer, Δrep challenger). -/
def outcomeOf : Option Dispute → Option (ℚ × ℚ × ℚ × ℚ)
  | none => none
  | some d => some (d.challenger_payout, d.proposer_payout,
      d.proposer_reputation_delta, d.challenger_reputation_delta)

/-! ## `src/merkle.py`: the commitment engine

SHA-256 digests are embedded as the free term algebra `HashV` (see the module
comment).  All pathing decisions of the source depend on digest equality only
at leaves that simultaneously match on `data_id`, where the digests are equal
by construction, so the model's control flow coincides with the code's for
every choice of concrete hash function. -/

/-- Free term algebra of hash values: `hstr s` is `hash_data(s)`, `hnode n`
is `hash_node(n)`, `hcomb a b` is `combine_hashes(a, b)`. -/
inductive HashV where
  | hstr : String → HashV
  | hnode : RNode → HashV
  | hcomb : HashV → HashV → HashV
deriving DecidableEq, Repr

/-- `MerkleNode` from `src/merkle.py`. -/
inductive MerkleNode where
  | mk (hash : HashV) (data_id : Option String)
      (left : Option MerkleNode) (right : Option MerkleNode)
deriving Repr

/-- Field accessor for `MerkleNode.hash`. -/
def MerkleNode.hash : MerkleNode → HashV
  | .mk h _ _ _ => h

/-- Field accessor for `MerkleNode.data_id`. -/
def MerkleNode.data_id : MerkleNode → Option String
  | .mk _ d _ _ => d

/-- Field accessor for `MerkleNode.left`. -/
def MerkleNode.left : MerkleNode → Option MerkleNode
  | .mk _ _ l _ => l

/-- Field accessor for `MerkleNode.right`. -/
def MerkleNode.right : MerkleNode → Option MerkleNode
  | .mk _ _ _ r => r

/-- The odd-count padding step of `ReasoningMerkleTree._build_tree`:
`nodes.append(nodes[-1])`. -/
def padEven (ns : List MerkleNode) : List MerkleNode :=
  if ns.length % 2 = 1 then ns ++ (ns.getLast?.elim [] (fun x => [x])) else ns

/-- The parent-level construction of `ReasoningMerkleTree._build_tree`:
pair adjacent siblings, parent hash `combine_hashes(left, right)`. -/
def pairUp : List MerkleNode → List MerkleNode
  | a :: b :: rest =>
      MerkleNode.mk (.hcomb a.hash b.hash) none (some a) (some b) :: pairUp rest
  | _ => []

theorem pairUp_length (ns : List MerkleNode) :
    (pairUp ns).length = ns.length / 2 := by
  induction ns using pairUp.induct with
  | case1 a b rest ih => simp [pairUp, ih]; try omega
  | case2 ns h => cases ns with
      | nil => simp [pairUp]
      | cons a tl =>
          cases tl with
          | nil => simp [pairUp]
          | cons b tl' => exact absurd rfl (h a b tl')

theorem padEven_length (ns : List MerkleNode) :
    (padEven ns).length ≤ ns.length + 1 := by
  unfold padEven
  split
  · cases h : ns.getLast? <;> simp [Option.elim]
  · omega

theorem buildStep_length_lt (ns : List MerkleNode) (h : 2 ≤ ns.length) :
    (pairUp (padEven ns)).length < ns.length := by
  have h1 := padEven_length ns
  rw [pairUp_length]
  omega

/-- `ReasoningMerkleTree._build_tree` (the empty-list case, which would raise
in Python, is mapped to `none`; the builder only calls it on non-empty
lists). -/
def buildTree : List MerkleNode → Option MerkleNode
  | [] => none
  | [n] => some n
  | a :: b :: rest => buildTree (pairUp (padEven (a :: b :: rest)))
termination_by ns => ns.length
decreasing_by
  exact buildStep_length_lt (a :: b :: rest) (by simp)

/-- The recursive `find_and_prove` closure of
`ReasoningMerkleTree._generate_proof`: returns whether the target leaf was
found together with the `(sibling_hash, direction)` pairs appended on the way
back up (leaf-to-root order). -/
def findAndProve (node_id : String) (target : HashV) :
    MerkleNode → Bool × List (HashV × String)
  | .mk h d l r =>
      if h = target ∧ d = some node_id then (true, [])
      else
        let lres := match l with
          | some ln => findAndProve node_id target ln
          | none => (false, [])
        if lres.1 then
          (true, lres.2 ++ (match r with
            | some rn => [(rn.hash, "right")]
            | none => []))
        else
          let rres := match r with
            | some rn => findAndProve node_id target rn
            | none => (false, [])
          if rres.1 then
            (true, rres.2 ++ (match l with
              | some ln => [(ln.hash, "left")]
              | none => []))
          else (false, [])

/-- `ReasoningMerkleTree._generate_proof` (given the `nodes` map and the
built root). -/
def generateProofFrom (nmap : List (String × HashV)) (root : Option MerkleNode)
    (node_id : String) : List (HashV × String) :=
  match dictGet nmap node_id with
  | none => []
  | some target =>
      match root with
      | none => []
      | some rt => (findAndProve node_id target rt).2

/-- The state of a `ReasoningMerkleTree` instance after construction. -/
structure ReasoningMerkleTree where
  root : Option MerkleNode := none
  nodes : List (String × HashV) := []
  proofs : List (String × List (HashV × String)) := []

/-- `ReasoningMerkleTree.build_from_reasoning_tree`: returns the instance
state together with the returned Merkle root hash. -/
def buildFromReasoningTree (rnodes : List RNode) : ReasoningMerkleTree × HashV :=
  if rnodes.isEmpty then
    ({ root := none, nodes := [], proofs := [] }, .hstr "")
  else
    let nmap := rnodes.foldl (fun acc n => dictInsert acc n.id (.hnode n)) []
    let leaves := rnodes.map
      (fun n => MerkleNode.mk (.hnode n) (some n.id) none none)
    let root := buildTree leaves
    let proofs := nmap.map (fun kv => (kv.1, generateProofFrom nmap root kv.1))
    ({ root := root, nodes := nmap, proofs := proofs },
     match root with
     | some rt => rt.hash
     | none => .hstr "")

/-- `ReasoningMerkleTree.get_proof`. -/
def getProof (t : ReasoningMerkleTree) (node_id : String) :
    Option (List (HashV × String)) :=
  dictGet t.proofs node_id

/-- The proof-folding loop of `ReasoningMerkleTree.verify_proof`. -/
def foldProof (start : HashV) (proof : List (HashV × String)) : HashV :=
  proof.foldl
    (fun cur sd => if sd.2 = "left" then .hcomb sd.1 cur else .hcomb cur sd.1)
    start

/-- `ReasoningMerkleTree.verify_proof`. -/
def verifyProof (node_data : RNode) (proof : List (HashV × String))
    (root_hash : HashV) : Bool :=
  foldProof (.hnode node_data) proof = root_hash

/-- `occursIn nid target t`: some node of the subtree `t` carries hash
`target` and data identifier `nid` (the match condition of
`find_and_prove`). -/
def occursIn (nid : String) (target : HashV) : MerkleNode → Bool
  | .mk h d l r =>
      (decide (h = target) && decide (d = some nid)) ||
      (match l with | some x => occursIn nid target x | none => false) ||
      (match r with | some x => occursIn nid target x | none => false)

/-! ## `src/consensus.py`: the validator consensus engine -/

/-- `CONSENSUS_THRESHOLD` from `src/consensus.py`. -/
def CONSENSUS_THRESHOLD : ℚ := 6/10

/-- `CALIBRATION_DECAY_PER_EPOCH` from `src/consensus.py`. -/
def CALIBRATION_DECAY_PER_EPOCH : ℚ := 2/100

/-- `ValidatorTier` from `src/consensus.py`. -/
inductive ValidatorTier where
  | scout | auditor | arbiter
deriving DecidableEq, Repr

/-- `TIER_CONFIG[tier]["stake_required"]`. -/
def stakeRequired : ValidatorTier → ℚ
  | .scout => 100
  | .auditor => 500
  | .arbiter => 2000

/-- `TIER_CONFIG[tier]["weight_multiplier"]`. -/
def weightMultiplier : ValidatorTier → ℚ
  | .scout => 1
  | .auditor => 2
  | .arbiter => 5

/-- `TIER_CONFIG[tier]["max_cases_per_epoch]` (`float('inf')` for the arbiter
tier is embedded as `none`). -/
def maxCasesPerEpoch : ValidatorTier → Option ℕ
  | .scout => some 10
  | .auditor => some 50
  | .arbiter => none

/-- `TIER_CONFIG[tier]["min_calibration"]`. -/
def minCalibration : ValidatorTier → ℚ
  | .scout => 1/2
  | .auditor => 7/10
  | .arbiter => 85/100

/-- An entry of `ValidatorState.verdict_history` from `src/consensus.py`. -/
structure VerdictHistoryEntry where
  timestamp : ℤ
  correct : Bool
  confidence : ℚ
  alignment : ℚ
deriving DecidableEq, Repr

/-- `ValidatorState` from `src/consensus.py`. -/
structure ValidatorState where
  hotkey : String
  tier : ValidatorTier
  stake : ℚ
  calibration_score : ℚ := 1
  verdicts_submitted : ℕ := 0
  correct_verdicts : ℕ := 0
  cases_this_epoch : ℕ := 0
  last_active : ℤ := 0
  tier_start_date : ℤ := 0
  slashing_events : List ℤ := []
  verdict_history : List VerdictHistoryEntry := []
deriving DecidableEq, Repr

/-- `ValidatorState.effective_weight`. -/
def ValidatorState.effective_weight (v : ValidatorState) : ℚ :=
  v.stake * v.calibration_score * weightMultiplier v.tier

/-- `Vote` from `src/consensus.py`. -/
structure Vote where
  validator_hotkey : String
  verdict : Verdict
  confidence : ℚ
  reasoning : String
  submitted_at : ℤ := 0
deriving DecidableEq, Repr

/-- `ConsensusResult` from `src/consensus.py`.  `vote_breakdown` keeps the
dictionary's insertion order (the `Verdict` declaration order); the no-votes
branch produces the empty dictionary `[]`. -/
structure ConsensusResult where
  dispute_id : String
  final_verdict : Verdict
  weighted_score : ℚ
  total_weight : ℚ
  vote_breakdown : List (Verdict × ℚ)
  participating_validators : List String
  escalated : Bool := false
deriving DecidableEq, Repr

/-- `ConsensusResult.consensus_reached`. -/
def ConsensusResult.consensus_reached (r : ConsensusResult) : Bool :=
  CONSENSUS_THRESHOLD ≤ r.weighted_score

/-- An entry of `ValidatorConsensus.active_disputes` from `src/consensus.py`
(the `DisputeForAdjudication` payload itself is transport data and is not
consulted by the core computations modelled here). -/
structure ActiveDisputeState where
  assigned_validators : List String
  deadline : ℤ
  escalated : Bool := false
deriving DecidableEq, Repr

/-- The mutable state of `ValidatorConsensus` from `src/consensus.py`. -/
structure ValidatorConsensus where
  validators : List (String × ValidatorState) := []
  active_disputes : List (String × ActiveDisputeState) := []
  dispute_votes : List (String × List Vote) := []
  epoch_start : ℤ := 0
deriving DecidableEq, Repr

/-- The `ValidatorState` built inside
`ValidatorConsensus.register_validator`; `now` stands for the
`datetime.utcnow()` defaults of `last_active` and `tier_start_date`. -/
def freshValidator (hotkey : String) (t : ValidatorTier) (stake : ℚ)
    (now : ℤ) : ValidatorState :=
  { hotkey := hotkey, tier := t, stake := stake,
    last_active := now, tier_start_date := now }

/-- `ValidatorConsensus.register_validator`.  `none` models the raised
`ValueError`; on success the updated registry and the new validator state are
returned. -/
def registerValidator (vc : ValidatorConsensus) (hotkey : String) (stake : ℚ)
    (tier : ValidatorTier) (now : ℤ) :
    Option (ValidatorConsensus × ValidatorState) :=
  let register := fun (t : ValidatorTier) =>
    let v := freshValidator hotkey t stake now
    some ({ vc with validators := dictInsert vc.validators hotkey v }, v)
  if stake < stakeRequired tier then
    if stake < stakeRequired ValidatorTier.scout then none
    else register .scout
  else register tier

/-- The per-validator decay step of
`ValidatorConsensus.apply_calibration_decay`.  `days_inactive` is
`(now - last_active).days`, i.e. floor division of the elapsed seconds by
86400, and `days_inactive // 7` is Python floor division (`Int.fdiv`). -/
def applyDecay (v : ValidatorState) (now : ℤ) : ValidatorState :=
  let days_inactive := Int.fdiv (now - v.last_active) 86400
  if days_inactive > 7 then
    let decay := CALIBRATION_DECAY_PER_EPOCH * ((Int.fdiv days_inactive 7 : ℤ) : ℚ)
    { v with calibration_score := max (1/2) (v.calibration_score - decay) }
  else v

/-- `ValidatorConsensus.apply_calibration_decay`: the decay sweep over the
whole registry at instant `now`. -/
def applyCalibrationDecay (vc : ValidatorConsensus) (now : ℤ) :
    ValidatorConsensus :=
  { vc with validators := vc.validators.map (fun kv => (kv.1, applyDecay kv.2 now)) }

/-- The `Verdict` members in declaration order — the iteration order of the
`verdict_weights` dictionary in `calculate_consensus`. -/
def verdictList : List Verdict :=
  [.challenge_upheld, .challenge_rejected, .partial_v, .abstain]

/-- One comparison step of Python's
`max(vote_breakdown.items(), key=lambda x: x[1])`: keep the incumbent unless
the next item is strictly greater (so the first maximal item wins). -/
def maxByWeight (best x : Verdict × ℚ) : Verdict × ℚ :=
  if x.2 > best.2 then x else best

/-- `ValidatorConsensus.calculate_consensus`. -/
def calculateConsensus (vc : ValidatorConsensus) (dispute_id : String) :
    Option ConsensusResult :=
  match dictGet vc.active_disputes dispute_id with
  | none => none
  | some _ =>
      let votes := (dictGet vc.dispute_votes dispute_id).getD []
      if votes.isEmpty then
        some { dispute_id := dispute_id, final_verdict := .abstain,
               weighted_score := 0, total_weight := 0, vote_breakdown := [],
               participating_validators := [] }
      else
        let tallied := votes.foldl
          (fun (acc : (Verdict → ℚ) × ℚ) vote =>
            match dictGet vc.validators vote.validator_hotkey with
            | none => acc
            | some validator =>
                let weight := validator.effective_weight * vote.confidence
                (fun v => if v = vote.verdict then acc.1 v + weight else acc.1 v,
                 acc.2 + weight))
          (fun _ => 0, 0)
        let verdict_weights := tallied.1
        let total_weight := tallied.2
        if total_weight = 0 then
          some { dispute_id := dispute_id, final_verdict := .abstain,
                 weighted_score := 0, total_weight := 0,
                 vote_breakdown := verdictList.map (fun v => (v, verdict_weights v)),
                 participating_validators := votes.map Vote.validator_hotkey }
        else
          let vote_breakdown :=
            verdictList.map (fun v => (v, verdict_weights v / total_weight))
          let winner := vote_breakdown.foldl maxByWeight
            (Verdict.challenge_upheld,
             verdict_weights .challenge_upheld / total_weight)
          some { dispute_id := dispute_id, final_verdict := winner.1,
                 weighted_score := winner.2, total_weight := total_weight,
                 vote_breakdown := vote_breakdown,
                 participating_validators := votes.map Vote.validator_hotkey }

/-! ## Spec-side definitions

These transcribe formulas from the specification's own words (§4.2 tables,
§4.3 tally) and are compared against the code-derived definitions above. -/

/-- Spec §4.2 table, challenge-upheld row:
`(C·m·c + P·0.30·c, −P·0.30·c, −0.10·c, +0.05·c)`. -/
def specUpheldOutcome (C P m c : ℚ) : ℚ × ℚ × ℚ × ℚ :=
  (C * m * c + P * (30/100) * c, -(P * (30/100) * c), -((10/100) * c), (5/100) * c)

/-- Spec §4.2 table, challenge-rejected row:
`(−C·0.50·c, +C·0.50·c·0.60, +0.02·c, −0.05·c)`. -/
def specRejectedOutcome (C _P c : ℚ) : ℚ × ℚ × ℚ × ℚ :=
  (-(C * (50/100) * c), C * (50/100) * c * (60/100), (2/100) * c, -((5/100) * c))

/-- Spec §4.2 table, partial row:
`(C·m·0.5·c + P·0.30·0.5·c − 0.20·C, −P·0.30·0.5·c, −0.03·c, +0.01·c)`. -/
def specPartialOutcome (C P m c : ℚ) : ℚ × ℚ × ℚ × ℚ :=
  (C * m * (5/10) * c + P * (30/100) * (5/10) * c - (20/100) * C,
   -(P * (30/100) * (5/10) * c), -((3/100) * c), (1/100) * c)

/-- Spec §4.2 table, no-defense (auto) row applied to a dispute:
challenger `C·m + min(P, P·0.45)`, proposer `−min(P, P·0.45)`,
Δrep `(−0.15, +0.05)`, with the dispute resolved as challenge-upheld. -/
def specNoDefenseResolution (d : Dispute) (now : ℤ) : Dispute :=
  { d with
      status := .resolved
      verdict := some .challenge_upheld
      resolved_at := some now
      challenger_payout := d.challenger_stake * ATTACK_MULTIPLIERS d.attack_type
        + min d.proposer_stake (d.proposer_stake * (45/100))
      proposer_payout := -(min d.proposer_stake (d.proposer_stake * (45/100)))
      proposer_reputation_delta := -(15/100)
      challenger_reputation_delta := 5/100 }

/-- Spec §4.3 tally: the weight a single vote contributes, namely the voting
validator's effective weight times the vote's confidence (an unregistered
voter is skipped, i.e. contributes nothing). -/
def voteWeight (vc : ValidatorConsensus) (vt : Vote) : ℚ :=
  match dictGet vc.validators vt.validator_hotkey with
  | some v => v.effective_weight * vt.confidence
  | none => 0

/-- Spec §4.3 tally: sum of `effective_weight × confidence` over the votes
cast for verdict `v`. -/
def specTally (vc : ValidatorConsensus) (votes : List Vote) (v : Verdict) : ℚ :=
  ((votes.filter (fun vt => vt.verdict = v)).map (voteWeight vc)).sum

/-- Spec §4.3 tally: the total weight `T`. -/
def specTotal (vc : ValidatorConsensus) (votes : List Vote) : ℚ :=
  (votes.map (voteWeight vc)).sum

/-- Spec §4.3 tally: the argmax verdict, ties broken by declaration order
(upheld ≻ rejected ≻ partial ≻ abstain). -/
def specWinner (w : Verdict → ℚ) : Verdict :=
  let m := max (max (w .challenge_upheld) (w .challenge_rejected))
               (max (w .partial_v) (w .abstain))
  if w .challenge_upheld = m then .challenge_upheld
  else if w .challenge_rejected = m then .challenge_rejected
  else if w .partial_v = m then .partial_v
  else .abstain

/-- One decay sweep with the per-validator subtraction doubled: the actual
effect of composing two sweeps at the same instant (claim C8 amended). -/
def specDoubleDecay (v : ValidatorState) (now : ℤ) : ValidatorState :=
  let days_inactive := Int.fdiv (now - v.last_active) 86400
  if days_inactive > 7 then
    let decayed :=
      max (1/2) (v.calibration_score
        - 2 * (CALIBRATION_DECAY_PER_EPOCH * ((Int.fdiv days_inactive 7 : ℤ) : ℚ)))
    { v with calibration_score := decayed }
  else v

/-- A successful registration outcome at tier `t`: the registry extended
with a fresh validator at that tier, together with the new state (claim C5
amended). -/
def specRegisterOutcome (vc : ValidatorConsensus) (hotkey : String)
    (stake : ℚ) (t : ValidatorTier) (now : ℤ) :
    ValidatorConsensus × ValidatorState :=
  let v := freshValidator hotkey t stake now
  ({ vc with validators := dictInsert vc.validators hotkey v }, v)

/-! ## Concrete fixtures used by witnesses and counterexamples -/

/-- A reasoning node with a given identifier. -/
def fixNode (i : String) : RNode :=
  { id := i, claim := "claim " ++ i, node_type := .premise }

/-- A pending-adjudication dispute with proposer stake 100, challenger stake
20 and attack kind contradiction (spec §8, scenario 1). -/
def fixDispute : Dispute :=
  { dispute_id := "d1", task_id := "t", target_node_id := "n0",
    proposer_hotkey := "p", challenger_hotkey := "ch", proposer_stake := 100,
    challenger_stake := 20, attack_type := .contradiction,
    challenge_argument := "arg", status := .pending_adjudication }

/-- A manager holding `fixDispute`. -/
def fixMgr : ChallengeManager := { disputes := [("d1", fixDispute)] }

/-- A pending-defense dispute whose defense deadline is instant 7200. -/
def fixPendingDispute : Dispute :=
  { dispute_id := "dp", task_id := "t", target_node_id := "n0",
    proposer_hotkey := "p", challenger_hotkey := "ch", proposer_stake := 100,
    challenger_stake := 30, attack_type := .logical_fallacy,
    challenge_argument := "arg", defense_deadline := some 7200 }

/-- A resolved dispute (as left by a resolution) used for the immutability
claims. -/
def fixResolvedDispute : Dispute :=
  { fixDispute with
      dispute_id := "dr"
      status := .resolved
      verdict := some .challenge_upheld
      resolved_at := some 0
      challenger_payout := 90
      proposer_payout := -30
      proposer_reputation_delta := -1
      challenger_reputation_delta := 1 }

/-- A manager holding both the pending and the resolved fixture disputes. -/
def fixMgr2 : ChallengeManager :=
  { disputes := [("dp", fixPendingDispute), ("dr", fixResolvedDispute)] }

/-- A reasoning tree with two nodes submitted at instant 0. -/
def fixTree : ReasoningTree :=
  { task_id := "t", root := fixNode "n0", nodes := [fixNode "n1"],
    merkle_root := "mr", stake := 100, proposer_hotkey := "p",
    submitted_at := some 0 }

/-- A challenge against node `n1` of `fixTree` with stake 50. -/
def fixChallenge : ChallengeSubmission :=
  { task_id := "t", target_node := "n1", attack_type := .outdated,
    argument := "x", stake := 50, challenger_hotkey := "c" }

/-- A defense submission for the fixture disputes. -/
def fixDefense : DefenseSubmission :=
  { dispute_id := "dp", defense_type := .refute, response := "resp" }

/-- A scout validator with stake 100 that has been inactive since instant 0. -/
def fixValidator : ValidatorState :=
  { hotkey := "v1", tier := .scout, stake := 100, last_active := 0 }

/-- A registry holding only `fixValidator`. -/
def fixVC : ValidatorConsensus := { validators := [("v1", fixValidator)] }

/-- The single full-confidence challenge-upheld vote of `fixVoteVC`. -/
def fixVote : Vote :=
  { validator_hotkey := "v1", verdict := .challenge_upheld, confidence := 1,
    reasoning := "r" }

/-- A consensus state with one assigned dispute `"d"` carrying a single
full-confidence challenge-upheld vote by `fixValidator`. -/
def fixVoteVC : ValidatorConsensus :=
  { validators := [("v1", fixValidator)]
    active_disputes := [("d", { assigned_validators := ["v1"], deadline := 100 })]
    dispute_votes := [("d", [fixVote])] }

/-- The three-node reasoning-tree node list of spec §8 scenario 5. -/
def fixNodes3 : List RNode := [fixNode "n0", fixNode "n1", fixNode "n2"]

/-- The consensus result computed for dispute `"d"` of `fixVoteVC`: one
full-confidence upheld vote of effective weight 100 wins with normalized
share 1. -/
def fixConsensusRes : ConsensusResult :=
  { dispute_id := "d", final_verdict := .challenge_upheld,
    weighted_score := 1, total_weight := 100,
    vote_breakdown := [(.challenge_upheld, 1), (.challenge_rejected, 0),
      (.partial_v, 0), (.abstain, 0)],
    participating_validators := ["v1"] }

/-! ## Helper lemmas -/

theorem dictGet_dictInsert_self {α β : Type} [DecidableEq α]
    (l : List (α × β)) (k : α) (v : β) :
    dictGet (dictInsert l k v) k = some v := by
  induction l with
  | nil => simp [dictGet, dictInsert]
  | cons hd tl ih =>
      obtain ⟨k', v'⟩ := hd
      by_cases h : k' = k <;> simp [dictGet, dictInsert, h, ih]

theorem dictGet_dictInsert_ne {α β : Type} [DecidableEq α]
    (l : List (α × β)) (k k' : α) (v : β) (h : k' ≠ k) :
    dictGet (dictInsert l k' v) k = dictGet l k := by
  induction l with
  | nil => simp [dictGet, dictInsert, h]
  | cons hd tl ih =>
      obtain ⟨k0, v0⟩ := hd
      by_cases h0 : k0 = k' <;> by_cases h1 : k0 = k <;>
        simp_all [dictGet, dictInsert]

theorem checkExpired_fold (now : ℤ) (l : List (String × Dispute))
    (acc : List (String × Dispute) × List String) :
    l.foldl
      (fun (acc : List (String × Dispute) × List String) kv =>
        if expiredPending kv.2 now then
          (acc.1 ++ [(kv.1, resolveNoDefense kv.2 now)], acc.2 ++ [kv.1])
        else
          (acc.1 ++ [kv], acc.2)) acc =
    (acc.1 ++ l.map (fun kv =>
        (kv.1, if expiredPending kv.2 now then resolveNoDefense kv.2 now else kv.2)),
     acc.2 ++ (l.filter (fun kv => expiredPending kv.2 now)).map Prod.fst) := by
  induction l generalizing acc with
  | nil => simp
  | cons hd tl ih =>
      by_cases h : expiredPending hd.2 now <;>
        simp [List.foldl_cons, h, ih, List.filter_cons]

/-- The disputes map after an expiry sweep: every pending dispute past its
deadline is replaced by its no-defense resolution, everything else is kept. -/
theorem checkExpired_disputes (mgr : ChallengeManager) (now : ℤ) :
    (checkExpiredDefenses mgr now).1.disputes =
      mgr.disputes.map (fun kv =>
        (kv.1, if expiredPending kv.2 now then resolveNoDefense kv.2 now else kv.2)) := by
  unfold checkExpiredDefenses
  rw [checkExpired_fold]
  simp

/-- The identifier list returned by an expiry sweep. -/
theorem checkExpired_returned (mgr : ChallengeManager) (now : ℤ) :
    (checkExpiredDefenses mgr now).2 =
      (mgr.disputes.filter (fun kv => expiredPending kv.2 now)).map Prod.fst := by
  unfold checkExpiredDefenses
  rw [checkExpired_fold]
  simp

/-- The no-defense resolution of the code equals the spec's no-defense table
row. -/
theorem resolveNoDefense_eq_spec (d : Dispute) (now : ℤ) :
    resolveNoDefense d now = specNoDefenseResolution d now := by
  unfold resolveNoDefense specNoDefenseResolution PROPOSER_SLASH_RATE
  rw [min_comm]
  norm_num

theorem dictGet_sweep_map (now : ℤ) (l : List (String × Dispute)) (k : String) :
    dictGet (l.map (fun kv =>
        (kv.1, if expiredPending kv.2 now then resolveNoDefense kv.2 now else kv.2))) k
      = (dictGet l k).map
          (fun d => if expiredPending d now then resolveNoDefense d now else d) := by
  induction l with
  | nil => rfl
  | cons hd tl ih =>
      by_cases h : hd.1 = k <;> simp [dictGet, h, ih]

/-! ## Claim C1 -/

/-- C1: resolving a dispute with verdict challenge-upheld, challenge-rejected
or partial and confidence `c ∈ [0,1]` settles exactly the §4.2 table
outcomes: upheld `(C·m·c + P·0.30·c, −P·0.30·c, −0.10·c, +0.05·c)`, rejected
`(−C·0.50·c, C·0.50·c·0.60, +0.02·c, −0.05·c)`, partial
`(C·m·0.5·c + P·0.30·0.5·c − 0.20·C, −P·0.30·0.5·c, −0.03·c, +0.01·c)`, where
`m` is the attack multiplier, `P` the proposer stake and `C` the challenger
stake. -/
theorem resolve_dispute_matches_spec_table (mgr : ChallengeManager) (now : ℤ)
    (did : String) (d : Dispute) (c : ℚ)
    (hd : dictGet mgr.disputes did = some d) (_hc0 : 0 ≤ c) (_hc1 : c ≤ 1) :
    outcomeOf (resolveDispute mgr now did .challenge_upheld c).2 =
      some (specUpheldOutcome d.challenger_stake d.proposer_stake
        (ATTACK_MULTIPLIERS d.attack_type) c)
  ∧ outcomeOf (resolveDispute mgr now did .challenge_rejected c).2 =
      some (specRejectedOutcome d.challenger_stake d.proposer_stake c)
  ∧ outcomeOf (resolveDispute mgr now did .partial_v c).2 =
      some (specPartialOutcome d.challenger_stake d.proposer_stake
        (ATTACK_MULTIPLIERS d.attack_type) c) := by
  refine ⟨?_, ?_, ?_⟩ <;>
    · simp only [resolveDispute, hd, outcomeOf, resolveChallengerWins,
        resolveProposerWins, resolvePartialVerdict, specUpheldOutcome,
        specRejectedOutcome, specPartialOutcome, PROPOSER_SLASH_RATE,
        CHALLENGER_SLASH_RATE, Option.some.injEq, Prod.mk.injEq]
      refine ⟨?_, ?_, ?_, ?_⟩ <;> ring_nf

/-- Witness for C1 at the spec §8 scenario-1 dispute with confidence 1/2. -/
theorem resolve_dispute_matches_spec_table_witness :
    (dictGet fixMgr.disputes "d1" = some fixDispute ∧ (0:ℚ) ≤ 1/2 ∧ (1:ℚ)/2 ≤ 1)
  ∧ (outcomeOf (resolveDispute fixMgr 0 "d1" .challenge_upheld (1/2)).2 =
      some (specUpheldOutcome fixDispute.challenger_stake fixDispute.proposer_stake
        (ATTACK_MULTIPLIERS fixDispute.attack_type) (1/2))
    ∧ outcomeOf (resolveDispute fixMgr 0 "d1" .challenge_rejected (1/2)).2 =
      some (specRejectedOutcome fixDispute.challenger_stake fixDispute.proposer_stake (1/2))
    ∧ outcomeOf (resolveDispute fixMgr 0 "d1" .partial_v (1/2)).2 =
      some (specPartialOutcome fixDispute.challenger_stake fixDispute.proposer_stake
        (ATTACK_MULTIPLIERS fixDispute.attack_type) (1/2))) :=
  ⟨⟨by decide, by norm_num, by norm_num⟩,
   resolve_dispute_matches_spec_table fixMgr 0 "d1" fixDispute (1/2)
     (by decide) (by norm_num) (by norm_num)⟩

/-! ## Claim C4 -/

/-- C4: the expired-defense sweep returns exactly the identifiers of the
pending-defense disputes whose deadline lies strictly before `now`, and each
such dispute is auto-resolved in favor of the challenger with the §4.2
no-defense outcome: status resolved, verdict challenge-upheld, challenger
payout `C·m + min(P, P·0.45)`, proposer payout `−min(P, P·0.45)`, reputation
deltas −0.15 and +0.05. -/
theorem check_expired_defenses_spec (mgr : ChallengeManager) (now : ℤ) :
    (checkExpiredDefenses mgr now).2 =
      (mgr.disputes.filter (fun kv =>
        kv.2.status == DisputeStatus.pending_defense &&
          (match kv.2.defense_deadline with
           | some dl => decide (dl < now)
           | none => false))).map Prod.fst
  ∧ (checkExpiredDefenses mgr now).1.disputes =
      mgr.disputes.map (fun kv =>
        (kv.1, if expiredPending kv.2 now then specNoDefenseResolution kv.2 now
               else kv.2)) := by
  constructor
  · rw [checkExpired_returned]
    rfl
  · rw [checkExpired_disputes]
    simp only [resolveNoDefense_eq_spec]

/-! ## Claim C5 -/

/-- C5 counterexample: a validator registering with stake 600 and requesting
the arbiter tier is registered as a scout, not (as the claim states) at the
highest tier the stake permits, which would be auditor (600 ≥ 500). -/
theorem register_validator_demotion_counterexample :
    (registerValidator {} "v" 600 .arbiter 0).map (fun p => p.2.tier) =
      some ValidatorTier.scout
  ∧ (600 : ℚ) ≥ stakeRequired .auditor
  ∧ ValidatorTier.scout ≠ ValidatorTier.auditor := by
  refine ⟨by decide, by norm_num [stakeRequired], by decide⟩

/-- C5 amended: if the stake is below the requested tier's minimum
(scout 100, auditor 500, arbiter 2000) the validator is registered as a
scout (not at the highest tier the stake permits); if the stake is also
below the scout minimum, registration fails; otherwise the requested tier is
granted. -/
theorem register_validator_demotes_to_scout (vc : ValidatorConsensus)
    (hotkey : String) (stake : ℚ) (tier : ValidatorTier) (now : ℤ) :
    stakeRequired .scout = 100 ∧ stakeRequired .auditor = 500 ∧
    stakeRequired .arbiter = 2000 ∧
    registerValidator vc hotkey stake tier now =
      (if stake < stakeRequired tier then
        (if stake < 100 then none
         else some (specRegisterOutcome vc hotkey stake .scout now))
       else some (specRegisterOutcome vc hotkey stake tier now)) := by
  refine ⟨rfl, rfl, rfl, ?_⟩
  unfold registerValidator specRegisterOutcome
  norm_num [stakeRequired]

/-! ## Claim C8 -/

theorem max_decay_twice (c d : ℚ) (hd : 0 ≤ d) :
    max (1/2) (max (1/2) (c - d) - d) = max (1/2) (c - 2 * d) := by
  rcases le_total (c - d) (1/2) with h | h
  · rw [max_eq_left h, max_eq_left (by linarith), max_eq_left (by linarith)]
  · rw [max_eq_right h]
    congr 1
    ring

/-- The decay step as an explicit record update. -/
theorem applyDecay_eq (v : ValidatorState) (now : ℤ) :
    applyDecay v now =
      { v with calibration_score :=
          if Int.fdiv (now - v.last_active) 86400 > 7 then
            max (1/2) (v.calibration_score - CALIBRATION_DECAY_PER_EPOCH *
              ((Int.fdiv (Int.fdiv (now - v.last_active) 86400) 7 : ℤ) : ℚ))
          else v.calibration_score } := by
  unfold applyDecay
  dsimp only
  split_ifs with h
  · rfl
  · rfl

/-- Applying the per-validator decay step twice at the same instant
subtracts the decay twice (floored at 1/2). -/
theorem applyDecay_twice (v : ValidatorState) (now : ℤ) :
    applyDecay (applyDecay v now) now = specDoubleDecay v now := by
  rw [applyDecay_eq, applyDecay_eq]
  unfold specDoubleDecay
  by_cases h : Int.fdiv (now - v.last_active) 86400 > 7
  · have h0 : (0:ℤ) ≤ Int.fdiv (Int.fdiv (now - v.last_active) 86400) 7 :=
      Int.fdiv_nonneg (by omega) (by norm_num)
    have h1 : (0:ℚ) ≤ ((Int.fdiv (Int.fdiv (now - v.last_active) 86400) 7 : ℤ) : ℚ) := by
      exact_mod_cast h0
    have h2 : (0:ℚ) ≤ CALIBRATION_DECAY_PER_EPOCH := by
      norm_num [CALIBRATION_DECAY_PER_EPOCH]
    have hnn : (0:ℚ) ≤ CALIBRATION_DECAY_PER_EPOCH *
        ((Int.fdiv (Int.fdiv (now - v.last_active) 86400) 7 : ℤ) : ℚ) :=
      mul_nonneg h2 h1
    simp only [h, if_true]
    rw [max_decay_twice _ _ hnn]
  · simp only [h, if_false]

/-- C8 counterexample: a validator inactive for 8 days with calibration 1.0;
one sweep leaves 49/50 = 0.98, a second sweep at the same instant leaves
24/25 = 0.96, so two sweeps do not equal one sweep. -/
theorem decay_sweep_not_idempotent_counterexample :
    applyCalibrationDecay (applyCalibrationDecay fixVC 691200) 691200 ≠
      applyCalibrationDecay fixVC 691200 := by
  have hfd : Int.fdiv (691200:ℤ) 86400 = 8 := by decide
  have hfd2 : Int.fdiv ((8:ℤ)) 7 = 1 := by decide
  have m1 : max ((1:ℚ)/2) (49/50) = 49/50 := max_eq_right (by norm_num)
  have m2 : max ((1:ℚ)/2) (24/25) = 24/25 := max_eq_right (by norm_num)
  intro hcontra
  have h1 := congrArg
    (fun s => (dictGet s.validators "v1").map ValidatorState.calibration_score)
    hcontra
  simp only [applyCalibrationDecay, applyDecay_eq, fixVC, fixValidator,
    List.map, dictGet, if_pos, Option.map] at h1
  norm_num [hfd, hfd2, CALIBRATION_DECAY_PER_EPOCH, m1, m2] at h1

/-- C8 amended: the decay sweep is not idempotent; composing two sweeps at
the same wall-clock instant equals a single sweep whose per-validator
subtraction `0.02 × floor(days_inactive / 7)` is doubled (still floored at
0.5, and still skipping validators inactive at most 7 days). -/
theorem decay_sweep_composition (vc : ValidatorConsensus) (now : ℤ) :
    applyCalibrationDecay (applyCalibrationDecay vc now) now =
      { vc with validators :=
          vc.validators.map (fun kv => (kv.1, specDoubleDecay kv.2 now)) } := by
  unfold applyCalibrationDecay
  simp only [List.map_map]
  have hfun : ((fun kv : String × ValidatorState => (kv.1, applyDecay kv.2 now)) ∘
      (fun kv : String × ValidatorState => (kv.1, applyDecay kv.2 now))) =
      fun kv : String × ValidatorState => (kv.1, specDoubleDecay kv.2 now) := by
    funext kv
    simp only [Function.comp_apply]
    rw [applyDecay_twice]
  rw [hfun]

/-! ## Claim C10 -/

/-- C10: when a reasoning tree's `submitted_at` is absent, challenge
validation skips the 6-hour-window check entirely: at any instant `now` it
fails only for a missing target node, an insufficient stake, or an active
duplicate dispute, and otherwise succeeds. -/
theorem missing_timestamp_skips_window_check (mgr : ChallengeManager)
    (ch : ChallengeSubmission) (tree : ReasoningTree) (now : ℤ)
    (hts : tree.submitted_at = none) :
    validateChallenge mgr ch tree now =
      (if ch.target_node ∉ tree.root.id :: tree.nodes.map RNode.id then
         (false, some "Target node not found in tree")
       else if ch.stake < tree.stake * MIN_CHALLENGE_STAKE_RATIO then
         (false, some "Challenge stake below minimum")
       else if hasActiveDuplicate mgr tree.task_id ch.target_node then
         (false, some "Node already has active challenge")
       else (true, none)) := by
  unfold validateChallenge
  rw [hts]
  rfl

/-- Witness for C10: a timestampless copy of the fixture tree is
challengeable arbitrarily late (instant 999999999). -/
theorem missing_timestamp_skips_window_check_witness :
    ({ fixTree with submitted_at := none } : ReasoningTree).submitted_at = none
  ∧ validateChallenge {} fixChallenge { fixTree with submitted_at := none }
      999999999 =
      (if fixChallenge.target_node ∉
          ({ fixTree with submitted_at := none } : ReasoningTree).root.id ::
            ({ fixTree with submitted_at := none } : ReasoningTree).nodes.map RNode.id then
         (false, some "Target node not found in tree")
       else if fixChallenge.stake <
          ({ fixTree with submitted_at := none } : ReasoningTree).stake *
            MIN_CHALLENGE_STAKE_RATIO then
         (false, some "Challenge stake below minimum")
       else if hasActiveDuplicate {}
          ({ fixTree with submitted_at := none } : ReasoningTree).task_id
          fixChallenge.target_node then
         (false, some "Node already has active challenge")
       else (true, none)) :=
  ⟨rfl, missing_timestamp_skips_window_check {} fixChallenge
    { fixTree with submitted_at := none } 999999999 rfl⟩

/-! ## Claim C6 -/

/-- C6 counterexample: at the exact second 6 hours after submission the
fixture challenge is accepted, and at the exact second of the defense
deadline the fixture defense is accepted — both boundary operations succeed
where the claim says they are rejected. -/
theorem boundary_rejection_counterexample :
    (validateChallenge {} fixChallenge fixTree (CHALLENGE_WINDOW_HOURS * 3600)).1 = true
  ∧ (submitDefense fixMgr2 "dp" fixDefense 7200).2.1 = true := by
  constructor
  · unfold validateChallenge
    norm_num [fixChallenge, fixTree, fixNode, MIN_CHALLENGE_STAKE_RATIO,
      CHALLENGE_WINDOW_HOURS, hasActiveDuplicate, dictGet]
  · unfold submitDefense
    norm_num [fixMgr2, fixPendingDispute, dictGet]

/-- C6 amended: both boundary instants are accepted, and rejection begins
one second strictly after them: a challenge exactly 6 h after submission
passes the window check (and is rejected one second later), and a defense
exactly at the 2-h deadline of a freshly opened dispute is accepted (and is
rejected one second later). -/
theorem boundary_instants_accepted (mgr : ChallengeManager)
    (ch : ChallengeSubmission) (tree : ReasoningTree) (sub : ℤ)
    (mgrD : ChallengeManager) (chD : ChallengeSubmission)
    (treeD : ReasoningTree) (t0 : ℤ) (defense : DefenseSubmission)
    (hsub : tree.submitted_at = some sub)
    (hnode : ch.target_node ∈ tree.root.id :: tree.nodes.map RNode.id)
    (hstake : ¬ ch.stake < tree.stake * MIN_CHALLENGE_STAKE_RATIO)
    (hdup : hasActiveDuplicate mgr tree.task_id ch.target_node = false) :
    validateChallenge mgr ch tree (sub + CHALLENGE_WINDOW_HOURS * 3600) = (true, none)
  ∧ validateChallenge mgr ch tree (sub + CHALLENGE_WINDOW_HOURS * 3600 + 1) =
      (false, some "Challenge window has closed")
  ∧ (submitDefense (createDispute mgrD chD treeD t0).1
       (createDispute mgrD chD treeD t0).2.dispute_id defense
       (t0 + DEFENSE_WINDOW_HOURS * 3600)).2 = (true, none)
  ∧ (submitDefense (createDispute mgrD chD treeD t0).1
       (createDispute mgrD chD treeD t0).2.dispute_id defense
       (t0 + DEFENSE_WINDOW_HOURS * 3600 + 1)).2 =
      (false, some "Defense window has expired") := by
  have hwin1 : ¬ (sub + CHALLENGE_WINDOW_HOURS * 3600 >
      sub + CHALLENGE_WINDOW_HOURS * 3600) := by omega
  have hwin2 : sub + CHALLENGE_WINDOW_HOURS * 3600 + 1 >
      sub + CHALLENGE_WINDOW_HOURS * 3600 := by omega
  have hdl1 : ¬ (t0 + DEFENSE_WINDOW_HOURS * 3600 >
      t0 + DEFENSE_WINDOW_HOURS * 3600) := by omega
  have hdl2 : t0 + DEFENSE_WINDOW_HOURS * 3600 + 1 >
      t0 + DEFENSE_WINDOW_HOURS * 3600 := by omega
  refine ⟨?_, ?_, ?_, ?_⟩
  · unfold validateChallenge
    simp [hsub, hnode, hstake, hdup, hwin1]
  · unfold validateChallenge
    simp [hsub, hnode, hstake, hwin2]
  · unfold submitDefense createDispute
    simp [dictGet_dictInsert_self, hdl1]
  · unfold submitDefense createDispute
    simp [dictGet_dictInsert_self, hdl2]

/-- Witness for the amended C6 at the concrete fixtures (submission at
instant 0, dispute opened at instant 1000). -/
theorem boundary_instants_accepted_witness :
    (fixTree.submitted_at = some 0
      ∧ fixChallenge.target_node ∈ fixTree.root.id :: fixTree.nodes.map RNode.id
      ∧ ¬ fixChallenge.stake < fixTree.stake * MIN_CHALLENGE_STAKE_RATIO
      ∧ hasActiveDuplicate {} fixTree.task_id fixChallenge.target_node = false)
  ∧ (validateChallenge {} fixChallenge fixTree (0 + CHALLENGE_WINDOW_HOURS * 3600) = (true, none)
    ∧ validateChallenge {} fixChallenge fixTree (0 + CHALLENGE_WINDOW_HOURS * 3600 + 1) =
        (false, some "Challenge window has closed")
    ∧ (submitDefense (createDispute {} fixChallenge fixTree 1000).1
         (createDispute {} fixChallenge fixTree 1000).2.dispute_id fixDefense
         (1000 + DEFENSE_WINDOW_HOURS * 3600)).2 = (true, none)
    ∧ (submitDefense (createDispute {} fixChallenge fixTree 1000).1
         (createDispute {} fixChallenge fixTree 1000).2.dispute_id fixDefense
         (1000 + DEFENSE_WINDOW_HOURS * 3600 + 1)).2 =
        (false, some "Defense window has expired")) :=
  ⟨⟨rfl, by decide, by norm_num [fixChallenge, fixTree, MIN_CHALLENGE_STAKE_RATIO],
    by decide⟩,
   boundary_instants_accepted {} fixChallenge fixTree 0 {} fixChallenge fixTree
     1000 fixDefense rfl (by decide)
     (by norm_num [fixChallenge, fixTree, MIN_CHALLENGE_STAKE_RATIO]) (by decide)⟩

/-! ## Claim C7 -/

/-- C7 counterexample: resolving the fixture dispute as challenge-upheld
settles a challenger payout of 90, and a second resolve call on the same
dispute with verdict challenge-rejected overwrites it to −10 — the settled
fields are not immutable. -/
theorem resolution_overwrite_counterexample :
    (dictGet (resolveDispute fixMgr 0 "d1" .challenge_upheld 1).1.disputes "d1").map
        Dispute.challenger_payout = some 90
  ∧ (dictGet (resolveDispute (resolveDispute fixMgr 0 "d1" .challenge_upheld 1).1
        0 "d1" .challenge_rejected 1).1.disputes "d1").map Dispute.challenger_payout =
      some (-10)
  ∧ (90 : ℚ) ≠ -10 := by
  refine ⟨?_, ?_, by norm_num⟩
  · norm_num [resolveDispute, dictGet, dictInsert, fixMgr, fixDispute,
      resolveChallengerWins, ATTACK_MULTIPLIERS, PROPOSER_SLASH_RATE]
  · norm_num [resolveDispute, dictGet, dictInsert, fixMgr, fixDispute,
      resolveChallengerWins, resolveProposerWins, ATTACK_MULTIPLIERS,
      PROPOSER_SLASH_RATE, CHALLENGER_SLASH_RATE]

/-- C7 amended: a resolved dispute's settled payout and reputation fields
are untouched by every later operation except another `resolve_dispute`
call (which recomputes and overwrites them, as the counterexample shows):
defense submissions and expiry sweeps leave the stored dispute unchanged. -/
theorem resolved_outcomes_immutable_except_resolve (mgr : ChallengeManager)
    (did did2 : String) (d : Dispute) (defense : DefenseSubmission) (now : ℤ)
    (hd : dictGet mgr.disputes did = some d)
    (hres : d.status = DisputeStatus.resolved) :
    dictGet ((submitDefense mgr did2 defense now).1).disputes did = some d
  ∧ dictGet ((checkExpiredDefenses mgr now).1).disputes did = some d := by
  constructor
  · unfold submitDefense
    cases h2 : dictGet mgr.disputes did2 with
    | none => simpa using hd
    | some d2 =>
        by_cases hstat : d2.status = DisputeStatus.pending_defense
        · by_cases hdl : d2.defense_deadline.elim false (fun dl => decide (now > dl))
          · simp [hstat, hdl, hd]
          · have hne : did2 ≠ did := by
              intro he
              subst he
              rw [h2] at hd
              injection hd with h3
              rw [h3] at hstat
              rw [hres] at hstat
              exact absurd hstat (by decide)
            simp [hstat, hdl, dictGet_dictInsert_ne _ _ _ _ hne, hd]
        · simp [hstat, hd]
  · rw [checkExpired_disputes, dictGet_sweep_map, hd]
    simp [expiredPending, hres]

/-- Witness for the amended C7: the resolved fixture dispute survives a
defense submission on another dispute and an expiry sweep (which actually
resolves the other, expired dispute) unchanged. -/
theorem resolved_outcomes_immutable_except_resolve_witness :
    (dictGet fixMgr2.disputes "dr" = some fixResolvedDispute
      ∧ fixResolvedDispute.status = DisputeStatus.resolved)
  ∧ (dictGet ((submitDefense fixMgr2 "dp" fixDefense 8000).1).disputes "dr" =
        some fixResolvedDispute
    ∧ dictGet ((checkExpiredDefenses fixMgr2 8000).1).disputes "dr" =
        some fixResolvedDispute) :=
  ⟨⟨by decide, rfl⟩,
   resolved_outcomes_immutable_except_resolve fixMgr2 "dr" "dp"
     fixResolvedDispute fixDefense 8000 (by decide) rfl⟩


/-! ## Claim C3 -/

theorem sum_nonneg_eq_zero (l : List ℚ) (h0 : ∀ x ∈ l, 0 ≤ x)
    (hs : l.sum = 0) : ∀ x ∈ l, x = 0 := by
  induction l with
  | nil => simp
  | cons a tl ih =>
      have ha : 0 ≤ a := h0 a (by simp)
      have htl : 0 ≤ tl.sum := List.sum_nonneg (fun x hx => h0 x (by simp [hx]))
      have hsum : a + tl.sum = 0 := by simpa using hs
      intro x hx
      rcases List.mem_cons.mp hx with rfl | hx'
      · linarith
      · exact ih (fun y hy => h0 y (by simp [hy])) (by linarith) x hx'

theorem maxByWeight_keep (b x : Verdict × ℚ) (h : x.2 ≤ b.2) :
    maxByWeight b x = b := by
  unfold maxByWeight
  exact if_neg (not_lt.mpr h)

theorem maxByWeight_take (b x : Verdict × ℚ) (h : b.2 < x.2) :
    maxByWeight b x = x := by
  unfold maxByWeight
  exact if_pos h

/-- Python's first-maximum fold over the breakdown items equals the spec's
declaration-order argmax. -/
theorem winner_fold (w : Verdict → ℚ) :
    (verdictList.map (fun v => (v, w v))).foldl maxByWeight
      (Verdict.challenge_upheld, w .challenge_upheld) =
    (specWinner w, w (specWinner w)) := by
  simp only [verdictList, List.map_cons, List.map_nil, List.foldl_cons,
    List.foldl_nil]
  rw [maxByWeight_keep (Verdict.challenge_upheld, w Verdict.challenge_upheld)
    (Verdict.challenge_upheld, w Verdict.challenge_upheld) (le_refl _)]
  rcases le_or_lt (w Verdict.challenge_rejected) (w Verdict.challenge_upheld) with h1 | h1
  · rw [maxByWeight_keep (Verdict.challenge_upheld, w Verdict.challenge_upheld)
      (Verdict.challenge_rejected, w Verdict.challenge_rejected) h1]
    rcases le_or_lt (w Verdict.partial_v) (w Verdict.challenge_upheld) with h2 | h2
    · rw [maxByWeight_keep (Verdict.challenge_upheld, w Verdict.challenge_upheld)
      (Verdict.partial_v, w Verdict.partial_v) h2]
      rcases le_or_lt (w Verdict.abstain) (w Verdict.challenge_upheld) with h3 | h3
      · -- winner: challenge-upheld
        rw [maxByWeight_keep (Verdict.challenge_upheld, w Verdict.challenge_upheld)
      (Verdict.abstain, w Verdict.abstain) h3]
        have hm : max (max (w Verdict.challenge_upheld) (w Verdict.challenge_rejected))
            (max (w Verdict.partial_v) (w Verdict.abstain)) = w Verdict.challenge_upheld := by
          rw [max_eq_left h1, max_eq_left (max_le h2 h3)]
        have hw : specWinner w = .challenge_upheld := by
          unfold specWinner
          rw [hm, if_pos rfl]
        rw [hw]
      · -- winner: abstain
        rw [maxByWeight_take (Verdict.challenge_upheld, w Verdict.challenge_upheld)
      (Verdict.abstain, w Verdict.abstain) h3]
        have hm : max (max (w Verdict.challenge_upheld) (w Verdict.challenge_rejected))
            (max (w Verdict.partial_v) (w Verdict.abstain)) = w Verdict.abstain := by
          rw [max_eq_left h1, max_eq_right (le_trans h2 h3.le),
            max_eq_right (le_of_lt h3)]
        have hw : specWinner w = .abstain := by
          unfold specWinner
          rw [hm, if_neg (ne_of_lt h3), if_neg (ne_of_lt (lt_of_le_of_lt h1 h3)),
            if_neg (ne_of_lt (lt_of_le_of_lt h2 h3))]
        rw [hw]
    · rw [maxByWeight_take (Verdict.challenge_upheld, w Verdict.challenge_upheld)
      (Verdict.partial_v, w Verdict.partial_v) h2]
      rcases le_or_lt (w Verdict.abstain) (w Verdict.partial_v) with h3 | h3
      · -- winner: partial
        rw [maxByWeight_keep (Verdict.partial_v, w Verdict.partial_v)
      (Verdict.abstain, w Verdict.abstain) h3]
        have hm : max (max (w Verdict.challenge_upheld) (w Verdict.challenge_rejected))
            (max (w Verdict.partial_v) (w Verdict.abstain)) = w Verdict.partial_v := by
          rw [max_eq_left h1, max_eq_left h3, max_eq_right (le_of_lt h2)]
        have hw : specWinner w = .partial_v := by
          unfold specWinner
          rw [hm, if_neg (ne_of_lt h2), if_neg (ne_of_lt (lt_of_le_of_lt h1 h2)),
            if_pos rfl]
        rw [hw]
      · -- winner: abstain
        rw [maxByWeight_take (Verdict.partial_v, w Verdict.partial_v)
      (Verdict.abstain, w Verdict.abstain) h3]
        have hm : max (max (w Verdict.challenge_upheld) (w Verdict.challenge_rejected))
            (max (w Verdict.partial_v) (w Verdict.abstain)) = w Verdict.abstain := by
          rw [max_eq_left h1, max_eq_right (le_of_lt h3),
            max_eq_right (le_of_lt (lt_trans h2 h3))]
        have hw : specWinner w = .abstain := by
          unfold specWinner
          rw [hm, if_neg (ne_of_lt (lt_trans h2 h3)),
            if_neg (ne_of_lt (lt_of_le_of_lt h1 (lt_trans h2 h3))),
            if_neg (ne_of_lt h3)]
        rw [hw]
  · rw [maxByWeight_take (Verdict.challenge_upheld, w Verdict.challenge_upheld)
      (Verdict.challenge_rejected, w Verdict.challenge_rejected) h1]
    rcases le_or_lt (w Verdict.partial_v) (w Verdict.challenge_rejected) with h2 | h2
    · rw [maxByWeight_keep (Verdict.challenge_rejected, w Verdict.challenge_rejected)
      (Verdict.partial_v, w Verdict.partial_v) h2]
      rcases le_or_lt (w Verdict.abstain) (w Verdict.challenge_rejected) with h3 | h3
      · -- winner: challenge-rejected
        rw [maxByWeight_keep (Verdict.challenge_rejected, w Verdict.challenge_rejected)
      (Verdict.abstain, w Verdict.abstain) h3]
        have hm : max (max (w Verdict.challenge_upheld) (w Verdict.challenge_rejected))
            (max (w Verdict.partial_v) (w Verdict.abstain)) = w Verdict.challenge_rejected := by
          rw [max_eq_right (le_of_lt h1), max_eq_left (max_le h2 h3)]
        have hw : specWinner w = .challenge_rejected := by
          unfold specWinner
          rw [hm, if_neg (ne_of_lt h1), if_pos rfl]
        rw [hw]
      · -- winner: abstain
        rw [maxByWeight_take (Verdict.challenge_rejected, w Verdict.challenge_rejected)
      (Verdict.abstain, w Verdict.abstain) h3]
        have hm : max (max (w Verdict.challenge_upheld) (w Verdict.challenge_rejected))
            (max (w Verdict.partial_v) (w Verdict.abstain)) = w Verdict.abstain := by
          rw [max_eq_right (le_of_lt h1), max_eq_right (le_trans h2 h3.le),
            max_eq_right (le_of_lt h3)]
        have hw : specWinner w = .abstain := by
          unfold specWinner
          rw [hm, if_neg (ne_of_lt (lt_trans h1 h3)), if_neg (ne_of_lt h3),
            if_neg (ne_of_lt (lt_of_le_of_lt h2 h3))]
        rw [hw]
    · rw [maxByWeight_take (Verdict.challenge_rejected, w Verdict.challenge_rejected)
      (Verdict.partial_v, w Verdict.partial_v) h2]
      rcases le_or_lt (w Verdict.abstain) (w Verdict.partial_v) with h3 | h3
      · -- winner: partial
        rw [maxByWeight_keep (Verdict.partial_v, w Verdict.partial_v)
      (Verdict.abstain, w Verdict.abstain) h3]
        have hm : max (max (w Verdict.challenge_upheld) (w Verdict.challenge_rejected))
            (max (w Verdict.partial_v) (w Verdict.abstain)) = w Verdict.partial_v := by
          rw [max_eq_right (le_of_lt h1), max_eq_left h3,
            max_eq_right (le_of_lt h2)]
        have hw : specWinner w = .partial_v := by
          unfold specWinner
          rw [hm, if_neg (ne_of_lt (lt_trans h1 h2)), if_neg (ne_of_lt h2),
            if_pos rfl]
        rw [hw]
      · -- winner: abstain
        rw [maxByWeight_take (Verdict.partial_v, w Verdict.partial_v)
      (Verdict.abstain, w Verdict.abstain) h3]
        have hm : max (max (w Verdict.challenge_upheld) (w Verdict.challenge_rejected))
            (max (w Verdict.partial_v) (w Verdict.abstain)) = w Verdict.abstain := by
          rw [max_eq_right (le_of_lt h1), max_eq_right (le_of_lt h3),
            max_eq_right (le_of_lt (lt_trans h2 h3))]
        have hw : specWinner w = .abstain := by
          unfold specWinner
          rw [hm, if_neg (ne_of_lt (lt_trans h1 (lt_trans h2 h3))),
            if_neg (ne_of_lt (lt_trans h2 h3)), if_neg (ne_of_lt h3)]
        rw [hw]

theorem tally_fold (vc : ValidatorConsensus) (votes : List Vote)
    (acc : (Verdict → ℚ) × ℚ) :
    votes.foldl
      (fun (acc : (Verdict → ℚ) × ℚ) vote =>
        match dictGet vc.validators vote.validator_hotkey with
        | none => acc
        | some validator =>
            let weight := validator.effective_weight * vote.confidence
            (fun v => if v = vote.verdict then acc.1 v + weight else acc.1 v,
             acc.2 + weight)) acc =
    (fun v => acc.1 v + specTally vc votes v, acc.2 + specTotal vc votes) := by
  induction votes generalizing acc with
  | nil =>
      simp only [List.foldl_nil, specTally, specTotal, List.filter_nil,
        List.map_nil, List.sum_nil, add_zero]
  | cons vt rest ih =>
      rw [List.foldl_cons]
      cases hv : dictGet vc.validators vt.validator_hotkey with
      | none =>
          simp only [hv]
          rw [ih]
          have hw0 : voteWeight vc vt = 0 := by
            unfold voteWeight
            rw [hv]
          refine Prod.ext ?_ ?_
          · funext v
            simp only [specTally, List.filter_cons]
            by_cases hvv : vt.verdict = v
            · simp [hvv, hw0]
            · simp [hvv]
          · simp only [specTotal, List.map_cons, List.sum_cons, hw0, zero_add]
      | some validator =>
          simp only [hv]
          rw [ih]
          have hw0 : voteWeight vc vt = validator.effective_weight * vt.confidence := by
            unfold voteWeight
            rw [hv]
          refine Prod.ext ?_ ?_
          · funext v
            simp only [specTally, List.filter_cons]
            by_cases hvv : vt.verdict = v
            · simp only [hvv, decide_True, if_true, eq_self_iff_true,
                List.map_cons, List.sum_cons, hw0, if_pos hvv.symm]
              ring
            · have hvv' : ¬ (v = vt.verdict) := fun hc => hvv hc.symm
              simp only [hvv, decide_False, Bool.false_eq_true, if_false,
                if_neg hvv']
          · simp only [specTotal, List.map_cons, List.sum_cons, hw0]
            ring

theorem calculateConsensus_empty (vc : ValidatorConsensus) (did : String)
    (st : ActiveDisputeState)
    (ha : dictGet vc.active_disputes did = some st)
    (he : ((dictGet vc.dispute_votes did).getD []).isEmpty = true) :
    calculateConsensus vc did =
      some { dispute_id := did, final_verdict := .abstain, weighted_score := 0,
             total_weight := 0, vote_breakdown := [],
             participating_validators := [] } := by
  unfold calculateConsensus
  rw [ha]
  simp only [he, if_true]

theorem calculateConsensus_zero (vc : ValidatorConsensus) (did : String)
    (st : ActiveDisputeState)
    (ha : dictGet vc.active_disputes did = some st)
    (he : ((dictGet vc.dispute_votes did).getD []).isEmpty = false)
    (hT : specTotal vc ((dictGet vc.dispute_votes did).getD []) = 0) :
    calculateConsensus vc did =
      some { dispute_id := did, final_verdict := .abstain, weighted_score := 0,
             total_weight := 0,
             vote_breakdown := verdictList.map (fun v =>
               (v, specTally vc ((dictGet vc.dispute_votes did).getD []) v)),
             participating_validators :=
               ((dictGet vc.dispute_votes did).getD []).map Vote.validator_hotkey } := by
  unfold calculateConsensus
  rw [ha]
  simp only [he, Bool.false_eq_true, if_false, tally_fold, zero_add, hT,
    if_pos]

theorem calculateConsensus_main (vc : ValidatorConsensus) (did : String)
    (st : ActiveDisputeState)
    (ha : dictGet vc.active_disputes did = some st)
    (he : ((dictGet vc.dispute_votes did).getD []).isEmpty = false)
    (hT : specTotal vc ((dictGet vc.dispute_votes did).getD []) ≠ 0) :
    calculateConsensus vc did =
      some { dispute_id := did,
             final_verdict := specWinner (fun v =>
               specTally vc ((dictGet vc.dispute_votes did).getD []) v /
                 specTotal vc ((dictGet vc.dispute_votes did).getD [])),
             weighted_score :=
               specTally vc ((dictGet vc.dispute_votes did).getD [])
                   (specWinner (fun v =>
                     specTally vc ((dictGet vc.dispute_votes did).getD []) v /
                       specTotal vc ((dictGet vc.dispute_votes did).getD []))) /
                 specTotal vc ((dictGet vc.dispute_votes did).getD []),
             total_weight := specTotal vc ((dictGet vc.dispute_votes did).getD []),
             vote_breakdown := verdictList.map (fun v =>
               (v, specTally vc ((dictGet vc.dispute_votes did).getD []) v /
                 specTotal vc ((dictGet vc.dispute_votes did).getD []))),
             participating_validators :=
               ((dictGet vc.dispute_votes did).getD []).map Vote.validator_hotkey } := by
  have hwf := winner_fold (fun v =>
    specTally vc ((dictGet vc.dispute_votes did).getD []) v /
      specTotal vc ((dictGet vc.dispute_votes did).getD []))
  unfold calculateConsensus
  rw [ha]
  simp only [he, Bool.false_eq_true, if_false, tally_fold, zero_add, hT,
    if_neg, hwf]

/-- C3: for an in-flight dispute the tally sums effective_weight × confidence
per verdict (an unregistered voter contributes nothing); if the total weight
is 0 an abstain result with zero weights is returned; otherwise the
per-verdict weights are normalized by the total, the argmax is picked with
ties broken in verdict declaration order (upheld ≻ rejected ≻ partial ≻
abstain), the normalized winning share is reported, and the result is
consensus-reached exactly when that share is ≥ 0.6.  (The zero-weights
consequence of the `T = 0` branch assumes the data-model invariant that
every vote's weight is non-negative.) -/
theorem calculate_consensus_spec (vc : ValidatorConsensus) (did : String)
    (res : ConsensusResult)
    (h : calculateConsensus vc did = some res)
    (hnn : ∀ vt ∈ (dictGet vc.dispute_votes did).getD [], 0 ≤ voteWeight vc vt) :
    res.total_weight = specTotal vc ((dictGet vc.dispute_votes did).getD [])
  ∧ (specTotal vc ((dictGet vc.dispute_votes did).getD []) = 0 →
      res.final_verdict = Verdict.abstain ∧ res.weighted_score = 0 ∧
      ∀ x ∈ res.vote_breakdown, x.2 = 0)
  ∧ (specTotal vc ((dictGet vc.dispute_votes did).getD []) ≠ 0 →
      res.vote_breakdown = verdictList.map (fun v =>
        (v, specTally vc ((dictGet vc.dispute_votes did).getD []) v /
          specTotal vc ((dictGet vc.dispute_votes did).getD [])))
    ∧ res.final_verdict = specWinner (fun v =>
        specTally vc ((dictGet vc.dispute_votes did).getD []) v /
          specTotal vc ((dictGet vc.dispute_votes did).getD []))
    ∧ res.weighted_score =
        specTally vc ((dictGet vc.dispute_votes did).getD []) res.final_verdict /
          specTotal vc ((dictGet vc.dispute_votes did).getD []))
  ∧ (res.consensus_reached = true ↔ (6:ℚ)/10 ≤ res.weighted_score) := by
  have hcr : ∀ r : ConsensusResult,
      (r.consensus_reached = true ↔ (6:ℚ)/10 ≤ r.weighted_score) := by
    intro r
    simp [ConsensusResult.consensus_reached, CONSENSUS_THRESHOLD]
  cases ha : dictGet vc.active_disputes did with
  | none =>
      unfold calculateConsensus at h
      rw [ha] at h
      exact absurd h (by simp)
  | some st =>
      cases he : ((dictGet vc.dispute_votes did).getD []).isEmpty with
      | true =>
          rw [calculateConsensus_empty vc did st ha he] at h
          have hv : (dictGet vc.dispute_votes did).getD [] = [] :=
            List.isEmpty_iff.mp he
          injection h with h'
          subst h'
          refine ⟨?_, ?_, ?_, hcr _⟩
          · rw [hv]
            simp [specTotal]
          · intro _
            exact ⟨rfl, rfl, by simp⟩
          · intro hT
            rw [hv] at hT
            exact absurd (by simp [specTotal]) hT
      | false =>
          by_cases hT : specTotal vc ((dictGet vc.dispute_votes did).getD []) = 0
          · rw [calculateConsensus_zero vc did st ha he hT] at h
            injection h with h'
            subst h'
            have hz : ∀ x ∈ ((dictGet vc.dispute_votes did).getD []).map (voteWeight vc),
                x = 0 := by
              apply sum_nonneg_eq_zero
              · intro x hx
                obtain ⟨vt, hvt, rfl⟩ := List.mem_map.mp hx
                exact hnn vt hvt
              · exact hT
            refine ⟨hT.symm, ?_, fun hT' => absurd hT hT', hcr _⟩
            intro _
            refine ⟨rfl, rfl, ?_⟩
            intro x hx
            obtain ⟨v, _, rfl⟩ := List.mem_map.mp hx
            show specTally vc ((dictGet vc.dispute_votes did).getD []) v = 0
            unfold specTally
            apply List.sum_eq_zero
            intro y hy
            obtain ⟨vt, hvt, rfl⟩ := List.mem_map.mp hy
            exact hz _ (List.mem_map_of_mem _ (List.mem_filter.mp hvt).1)
          · rw [calculateConsensus_main vc did st ha he hT] at h
            injection h with h'
            subst h'
            exact ⟨rfl, fun h0 => absurd h0 hT, fun _ => ⟨rfl, rfl, rfl⟩, hcr _⟩


theorem fixVote_tallies :
    specTotal fixVoteVC ((dictGet fixVoteVC.dispute_votes "d").getD []) = 100
  ∧ specTally fixVoteVC ((dictGet fixVoteVC.dispute_votes "d").getD [])
      Verdict.challenge_upheld = 100
  ∧ specTally fixVoteVC ((dictGet fixVoteVC.dispute_votes "d").getD [])
      Verdict.challenge_rejected = 0
  ∧ specTally fixVoteVC ((dictGet fixVoteVC.dispute_votes "d").getD [])
      Verdict.partial_v = 0
  ∧ specTally fixVoteVC ((dictGet fixVoteVC.dispute_votes "d").getD [])
      Verdict.abstain = 0 := by
  refine ⟨?_, ?_, ?_, ?_, ?_⟩ <;>
    (norm_num [specTotal, specTally, voteWeight, dictGet, fixVoteVC, fixVote,
      fixValidator, ValidatorState.effective_weight, weightMultiplier,
      List.filter_cons, List.filter_nil, decide_eq_true_eq]
     <;> simp [voteWeight, dictGet, fixVoteVC, fixValidator])

theorem calc_fixVoteVC :
    calculateConsensus fixVoteVC "d" = some fixConsensusRes := by
  obtain ⟨ht, hu, hr, hp, hab⟩ := fixVote_tallies
  rw [calculateConsensus_main fixVoteVC "d"
    { assigned_validators := ["v1"], deadline := 100 } rfl rfl (by rw [ht]; norm_num)]
  have hwin : specWinner (fun v =>
      specTally fixVoteVC ((dictGet fixVoteVC.dispute_votes "d").getD []) v /
        specTotal fixVoteVC ((dictGet fixVoteVC.dispute_votes "d").getD [])) =
      Verdict.challenge_upheld := by
    unfold specWinner
    dsimp only
    rw [hu, hr, hp, hab, ht]
    have hmax : ((100:ℚ)/100 ⊔ 0/100) ⊔ ((0:ℚ)/100 ⊔ 0/100) = 100/100 := by
      norm_num
    rw [hmax, if_pos rfl]
  rw [hwin]
  simp only [fixConsensusRes, verdictList, List.map_cons, List.map_nil,
    Option.some.injEq, ConsensusResult.mk.injEq, hu, hr, hp, hab, ht]
  norm_num [fixVoteVC, fixVote, dictGet]


/-- Witness for C3 at `fixVoteVC`: the single full-confidence upheld vote of
effective weight 100 yields winner challenge-upheld with normalized share 1
and consensus reached. -/
theorem calculate_consensus_spec_witness :
    (calculateConsensus fixVoteVC "d" = some fixConsensusRes
      ∧ ∀ vt ∈ (dictGet fixVoteVC.dispute_votes "d").getD [],
          0 ≤ voteWeight fixVoteVC vt)
  ∧ (fixConsensusRes.total_weight =
        specTotal fixVoteVC ((dictGet fixVoteVC.dispute_votes "d").getD [])
    ∧ (specTotal fixVoteVC ((dictGet fixVoteVC.dispute_votes "d").getD []) = 0 →
        fixConsensusRes.final_verdict = Verdict.abstain ∧
        fixConsensusRes.weighted_score = 0 ∧
        ∀ x ∈ fixConsensusRes.vote_breakdown, x.2 = 0)
    ∧ (specTotal fixVoteVC ((dictGet fixVoteVC.dispute_votes "d").getD []) ≠ 0 →
        fixConsensusRes.vote_breakdown = verdictList.map (fun v =>
          (v, specTally fixVoteVC ((dictGet fixVoteVC.dispute_votes "d").getD []) v /
            specTotal fixVoteVC ((dictGet fixVoteVC.dispute_votes "d").getD [])))
      ∧ fixConsensusRes.final_verdict = specWinner (fun v =>
          specTally fixVoteVC ((dictGet fixVoteVC.dispute_votes "d").getD []) v /
            specTotal fixVoteVC ((dictGet fixVoteVC.dispute_votes "d").getD []))
      ∧ fixConsensusRes.weighted_score =
          specTally fixVoteVC ((dictGet fixVoteVC.dispute_votes "d").getD [])
              fixConsensusRes.final_verdict /
            specTotal fixVoteVC ((dictGet fixVoteVC.dispute_votes "d").getD []))
    ∧ (fixConsensusRes.consensus_reached = true ↔
        (6:ℚ)/10 ≤ fixConsensusRes.weighted_score)) := by
  have hnn : ∀ vt ∈ (dictGet fixVoteVC.dispute_votes "d").getD [],
      0 ≤ voteWeight fixVoteVC vt := by
    intro vt hvt
    simp only [fixVoteVC, dictGet, if_pos, List.mem_singleton,
      Option.getD_some] at hvt
    subst hvt
    norm_num [voteWeight, dictGet, fixVoteVC, fixValidator,
      ValidatorState.effective_weight, weightMultiplier, fixVote]
  exact ⟨⟨calc_fixVoteVC, hnn⟩,
    calculate_consensus_spec fixVoteVC "d" fixConsensusRes calc_fixVoteVC hnn⟩

/-! ## Claims C2 and C9 -/

theorem foldProof_append (s : HashV) (p q : List (HashV × String)) :
    foldProof s (p ++ q) = foldProof (foldProof s p) q := by
  unfold foldProof
  exact List.foldl_append _ s p q

/-- Well-formedness of the Merkle trees produced by `_build_tree`: a node is
a childless leaf or an inner node whose hash combines its two children. -/
inductive WFM : MerkleNode → Prop
  | leaf (h : HashV) (d : Option String) : WFM (.mk h d none none)
  | node (d : Option String) (l r : MerkleNode) : WFM l → WFM r →
      WFM (.mk (.hcomb l.hash r.hash) d (some l) (some r))

theorem findAndProve_leaf (nid : String) (target : HashV) (h : HashV)
    (d : Option String) :
    findAndProve nid target (.mk h d none none) =
      if h = target ∧ d = some nid then (true, []) else (false, []) := by
  unfold findAndProve
  split
  · rfl
  · rfl

theorem findAndProve_node (nid : String) (target : HashV) (h : HashV)
    (d : Option String) (l r : MerkleNode) :
    findAndProve nid target (.mk h d (some l) (some r)) =
      if h = target ∧ d = some nid then (true, [])
      else if (findAndProve nid target l).1 then
        (true, (findAndProve nid target l).2 ++ [(r.hash, "right")])
      else if (findAndProve nid target r).1 then
        (true, (findAndProve nid target r).2 ++ [(l.hash, "left")])
      else (false, []) := by
  rw [findAndProve.eq_def]

theorem occursIn_leaf (nid : String) (target : HashV) (h : HashV)
    (d : Option String) :
    occursIn nid target (.mk h d none none) =
      (decide (h = target) && decide (d = some nid)) := by
  unfold occursIn
  simp

theorem occursIn_node (nid : String) (target : HashV) (h : HashV)
    (d : Option String) (l r : MerkleNode) :
    occursIn nid target (.mk h d (some l) (some r)) =
      ((decide (h = target) && decide (d = some nid)) ||
        occursIn nid target l || occursIn nid target r) := by
  rw [occursIn.eq_def]

/-- The found-flag of `find_and_prove` is exactly "the target leaf occurs in
the subtree". -/
theorem findAndProve_flag (nid : String) (target : HashV) (t : MerkleNode)
    (hwf : WFM t) :
    (findAndProve nid target t).1 = occursIn nid target t := by
  induction hwf with
  | leaf h d =>
      rw [findAndProve_leaf, occursIn_leaf]
      by_cases hc : h = target ∧ d = some nid
      · simp [hc]
      · rw [if_neg hc]
        rcases not_and_or.mp hc with h1 | h2
        · simp [h1]
        · simp [h2]
  | node d l r hl hr ihl ihr =>
      rw [findAndProve_node, occursIn_node]
      by_cases hc : HashV.hcomb l.hash r.hash = target ∧ d = some nid
      · simp [hc]
      · rw [if_neg hc]
        have hcb : (decide (HashV.hcomb l.hash r.hash = target) &&
            decide (d = some nid)) = false := by
          rcases not_and_or.mp hc with h1 | h2
          · simp [h1]
          · simp [h2]
        rw [hcb]
        by_cases hlb : (findAndProve nid target l).1
        · rw [if_pos hlb]
          rw [← ihl, hlb]
          simp
        · rw [if_neg hlb]
          rw [← ihl, ← ihr]
          simp only [Bool.false_or]
          by_cases hrb : (findAndProve nid target r).1
          · rw [if_pos hrb, hrb]
            simp [Bool.eq_false_iff.mpr hlb]
          · rw [if_neg hrb]
            simp [Bool.eq_false_iff.mpr hlb, Bool.eq_false_iff.mpr hrb]

/-- Folding the proof produced by a successful `find_and_prove` from the
target hash reconstructs the subtree's root hash. -/
theorem findAndProve_fold (nid : String) (target : HashV) (t : MerkleNode)
    (hwf : WFM t) :
    ∀ p, findAndProve nid target t = (true, p) →
      foldProof target p = t.hash := by
  induction hwf with
  | leaf h d =>
      intro p hfp
      rw [findAndProve_leaf] at hfp
      by_cases hc : h = target ∧ d = some nid
      · rw [if_pos hc] at hfp
        injection hfp with h1 h2
        subst h2
        simp only [foldProof, List.foldl_nil, MerkleNode.hash]
        exact hc.1.symm
      · rw [if_neg hc] at hfp
        injection hfp with h1 h2
        exact Bool.noConfusion h1
  | node d l r hl hr ihl ihr =>
      intro p hfp
      rw [findAndProve_node] at hfp
      have hdir : ¬ (("right":String) = "left") := by decide
      by_cases hc : HashV.hcomb l.hash r.hash = target ∧ d = some nid
      · rw [if_pos hc] at hfp
        injection hfp with h1 h2
        subst h2
        simp only [foldProof, List.foldl_nil, MerkleNode.hash]
        exact hc.1.symm
      · rw [if_neg hc] at hfp
        by_cases hlb : (findAndProve nid target l).1
        · rw [if_pos hlb] at hfp
          injection hfp with h1 h2
          subst h2
          have hleq : findAndProve nid target l =
              (true, (findAndProve nid target l).2) := by
            conv_rhs => rw [← hlb]
          have hfold := ihl _ hleq
          rw [foldProof_append, hfold]
          simp [foldProof, MerkleNode.hash]
        · rw [if_neg hlb] at hfp
          by_cases hrb : (findAndProve nid target r).1
          · rw [if_pos hrb] at hfp
            injection hfp with h1 h2
            subst h2
            have hreq : findAndProve nid target r =
                (true, (findAndProve nid target r).2) := by
              conv_rhs => rw [← hrb]
            have hfold := ihr _ hreq
            rw [foldProof_append, hfold]
            simp [foldProof, MerkleNode.hash]
          · rw [if_neg hrb] at hfp
            injection hfp with h1 h2
            exact Bool.noConfusion h1

theorem pairUp_WF (ns : List MerkleNode) (h : ∀ m ∈ ns, WFM m) :
    ∀ p ∈ pairUp ns, WFM p := by
  induction ns using pairUp.induct with
  | case1 a b rest ih =>
      intro p hp
      rw [pairUp] at hp
      rcases List.mem_cons.mp hp with rfl | hp'
      · exact WFM.node _ _ _ (h a (by simp)) (h b (by simp))
      · exact ih (fun m hm => h m (by simp [hm])) p hp'
  | case2 ns hns =>
      intro p hp
      cases ns with
      | nil => simp [pairUp] at hp
      | cons a tl =>
          cases tl with
          | nil => simp [pairUp] at hp
          | cons b tl' => exact absurd rfl (hns a b tl')

theorem mem_padEven (ns : List MerkleNode) (m : MerkleNode) (h : m ∈ ns) :
    m ∈ padEven ns := by
  unfold padEven
  split_ifs
  · exact List.mem_append_left _ h
  · exact h

theorem padEven_mem (ns : List MerkleNode) (m : MerkleNode)
    (h : m ∈ padEven ns) : m ∈ ns := by
  unfold padEven at h
  split_ifs at h
  · rcases List.mem_append.mp h with h1 | h1
    · exact h1
    · cases hg : ns.getLast? with
      | none =>
          rw [hg] at h1
          simp [Option.elim] at h1
      | some x =>
          rw [hg] at h1
          simp only [Option.elim] at h1
          have hx : x ∈ ns.getLast? := Option.mem_def.mpr hg
          obtain ⟨hne', he⟩ := List.mem_getLast?_eq_getLast hx
          rw [List.mem_singleton] at h1
          subst h1
          rw [he]
          exact List.getLast_mem hne'
  · exact h

theorem padEven_even (ns : List MerkleNode) :
    (padEven ns).length % 2 = 0 := by
  unfold padEven
  split_ifs with hodd
  · cases hg : ns.getLast? with
    | none =>
        have : ns = [] := List.getLast?_eq_none_iff.mp hg
        subst this
        simp at hodd
    | some x =>
        simp only [hg, Option.elim, List.length_append, List.length_singleton]
        omega
  · omega

theorem padEven_length_ge (ns : List MerkleNode) :
    ns.length ≤ (padEven ns).length := by
  unfold padEven
  split_ifs
  · simp
  · exact le_refl _

theorem pairUp_occurs (nid : String) (target : HashV) :
    ∀ ns : List MerkleNode, ns.length % 2 = 0 → ∀ m ∈ ns,
      occursIn nid target m = true →
      ∃ p ∈ pairUp ns, occursIn nid target p = true := by
  intro ns
  induction ns using pairUp.induct with
  | case1 a b rest ih =>
      intro heven m hm hocc
      rw [pairUp]
      rcases List.mem_cons.mp hm with rfl | hm'
      · refine ⟨_, List.mem_cons_self _ _, ?_⟩
        rw [occursIn_node, hocc]
        simp
      · rcases List.mem_cons.mp hm' with rfl | hm''
        · refine ⟨_, List.mem_cons_self _ _, ?_⟩
          rw [occursIn_node, hocc]
          simp
        · have heven' : rest.length % 2 = 0 := by
            simp only [List.length_cons] at heven
            omega
          obtain ⟨p, hp, hop⟩ := ih heven' m hm'' hocc
          exact ⟨p, List.mem_cons_of_mem _ hp, hop⟩
  | case2 ns hns =>
      intro heven m hm hocc
      cases ns with
      | nil => simp at hm
      | cons a tl =>
          cases tl with
          | nil => simp at heven
          | cons b tl' => exact absurd rfl (hns a b tl')

/-- Building from a non-empty well-formed leaf level yields a well-formed
root containing every occurrence present among the leaves. -/
theorem buildTree_spec :
    ∀ ns : List MerkleNode, ns ≠ [] → (∀ m ∈ ns, WFM m) →
      ∃ t, buildTree ns = some t ∧ WFM t ∧
        ∀ (nid : String) (target : HashV), ∀ m ∈ ns,
          occursIn nid target m = true → occursIn nid target t = true := by
  intro ns
  induction ns using buildTree.induct with
  | case1 =>
      intro hne _
      exact absurd rfl hne
  | case2 n =>
      intro _ h
      refine ⟨n, ?_, h n (by simp), ?_⟩
      · rw [buildTree]
      · intro nid target m hm hocc
        rw [List.mem_singleton] at hm
        subst hm
        exact hocc
  | case3 a b rest ih =>
      intro _ h
      have hlen : 2 ≤ (a :: b :: rest).length := by simp
      have hstep_ne : pairUp (padEven (a :: b :: rest)) ≠ [] := by
        have h1 : (a :: b :: rest).length ≤ (padEven (a :: b :: rest)).length :=
          padEven_length_ge _
      
        have h2 : (pairUp (padEven (a :: b :: rest))).length =
            (padEven (a :: b :: rest)).length / 2 := pairUp_length _
        intro he
        rw [he] at h2
        simp only [List.length_nil] at h2
        omega
      have hstep_wf : ∀ m ∈ pairUp (padEven (a :: b :: rest)), WFM m :=
        pairUp_WF _ (fun m hm => h m (padEven_mem _ _ hm))
      obtain ⟨t, ht, hwf, hocc⟩ := ih hstep_ne hstep_wf
      refine ⟨t, ?_, hwf, ?_⟩
      · rw [buildTree]
        exact ht
      · intro nid target m hm ho
        obtain ⟨p, hp, hop⟩ := pairUp_occurs nid target (padEven (a :: b :: rest))
          (padEven_even _) m (mem_padEven _ _ hm) ho
        exact hocc nid target p hp hop

theorem dictInsert_fresh {β : Type} (l : List (String × β)) (k : String)
    (v : β) (h : k ∉ l.map Prod.fst) : dictInsert l k v = l ++ [(k, v)] := by
  induction l with
  | nil => rfl
  | cons hd tl ih =>
      simp only [List.map_cons, List.mem_cons] at h
      push_neg at h
      rw [dictInsert, if_neg (fun he => h.1 he.symm), ih h.2]
      rfl

theorem buildNMap_eq (rnodes : List RNode) :
    ∀ acc : List (String × HashV),
    (rnodes.map RNode.id).Nodup →
    (∀ n ∈ rnodes, n.id ∉ acc.map Prod.fst) →
    rnodes.foldl (fun acc n => dictInsert acc n.id (.hnode n)) acc =
      acc ++ rnodes.map (fun n => (n.id, HashV.hnode n)) := by
  induction rnodes with
  | nil =>
      intro acc _ _
      simp
  | cons n rest ih =>
      intro acc hnd hdisj
      rw [List.map_cons] at hnd
      have hnd' := List.nodup_cons.mp hnd
      rw [List.foldl_cons, dictInsert_fresh _ _ _ (hdisj n (by simp))]
      rw [ih (acc ++ [(n.id, HashV.hnode n)]) hnd'.2 ?disj]
      · simp
      case disj =>
        intro m hm
        simp only [List.map_append, List.map_cons, List.map_nil,
          List.mem_append, List.mem_singleton]
        push_neg
        refine ⟨hdisj m (by simp [hm]), ?_⟩
        intro he
        exact hnd'.1 (he ▸ List.mem_map_of_mem _ hm)

theorem dictGet_nodesMap (rnodes : List RNode)
    (hnd : (rnodes.map RNode.id).Nodup) (n : RNode) (hn : n ∈ rnodes) :
    dictGet (rnodes.map (fun m => (m.id, HashV.hnode m))) n.id =
      some (.hnode n) := by
  induction rnodes with
  | nil => simp at hn
  | cons m rest ih =>
      rw [List.map_cons] at hnd
      have hnd' := List.nodup_cons.mp hnd
      rw [List.map_cons, dictGet]
      by_cases he : m.id = n.id
      · rw [if_pos he]
        rcases List.mem_cons.mp hn with rfl | hn'
        · rfl
        · exact absurd (he ▸ List.mem_map_of_mem RNode.id hn') hnd'.1
      · rw [if_neg he]
        rcases List.mem_cons.mp hn with rfl | hn'
        · exact absurd rfl he
        · exact ih hnd'.2 hn'

theorem dictGet_proofmap (nmap : List (String × HashV))
    (root : Option MerkleNode) (l : List (String × HashV)) (k : String) :
    dictGet (l.map (fun kv => (kv.1, generateProofFrom nmap root kv.1))) k =
      (dictGet l k).map (fun _ => generateProofFrom nmap root k) := by
  induction l with
  | nil => rfl
  | cons hd tl ih =>
      rw [List.map_cons, dictGet, dictGet]
      by_cases h : hd.1 = k
      · rw [if_pos h, if_pos h, h]
        rfl
      · rw [if_neg h, if_neg h]
        exact ih

theorem dictGet_eq_none_iff {β : Type} (l : List (String × β)) (k : String) :
    dictGet l k = none ↔ k ∉ l.map Prod.fst := by
  induction l with
  | nil => simp [dictGet]
  | cons hd tl ih =>
      rw [dictGet]
      by_cases h : hd.1 = k
      · simp [h]
      · rw [if_neg h, ih]
        simp only [List.map_cons, List.mem_cons]
        constructor
        · intro hnm hc
          rcases hc with hc | hc
          · exact h hc.symm
          · exact hnm hc
        · intro hnc hm
          exact hnc (Or.inr hm)

theorem keys_dictInsert {β : Type} (l : List (String × β)) (k k' : String)
    (v : β) :
    (k ∈ (dictInsert l k' v).map Prod.fst) ↔
      (k = k' ∨ k ∈ l.map Prod.fst) := by
  induction l with
  | nil => simp [dictInsert]
  | cons hd tl ih =>
      rw [dictInsert]
      by_cases h : hd.1 = k'
      · rw [if_pos h]
        subst h
        simp
      · rw [if_neg h]
        simp only [List.map_cons, List.mem_cons, ih]
        tauto

theorem keys_buildNMap (rnodes : List RNode) :
    ∀ (acc : List (String × HashV)) (k : String),
    (k ∈ (rnodes.foldl (fun acc n => dictInsert acc n.id (.hnode n)) acc).map
        Prod.fst) ↔
      (k ∈ acc.map Prod.fst ∨ k ∈ rnodes.map RNode.id) := by
  induction rnodes with
  | nil =>
      intro acc k
      simp
  | cons n rest ih =>
      intro acc k
      rw [List.foldl_cons, ih, keys_dictInsert]
      simp only [List.map_cons, List.mem_cons]
      tauto

/-- C2: for a non-empty reasoning tree (unique node identifiers, per the data
model) and any of its nodes `n`, the proof stored for `n.id` by the build is
the generated proof, and verifying `n` against that proof and the returned
Merkle root yields true — including single-node trees and odd leaf counts
(last leaf duplicated before pairing). -/
theorem merkle_build_verify_roundtrip (rnodes : List RNode)
    (hne : rnodes ≠ []) (hnd : (rnodes.map RNode.id).Nodup)
    (n : RNode) (hn : n ∈ rnodes) :
    getProof (buildFromReasoningTree rnodes).1 n.id =
      some (generateProofFrom (buildFromReasoningTree rnodes).1.nodes
        (buildFromReasoningTree rnodes).1.root n.id)
  ∧ verifyProof n
      (generateProofFrom (buildFromReasoningTree rnodes).1.nodes
        (buildFromReasoningTree rnodes).1.root n.id)
      (buildFromReasoningTree rnodes).2 = true := by
  have hne' : rnodes.isEmpty = false := by
    cases rnodes with
    | nil => exact absurd rfl hne
    | cons a tl => rfl
  have hnmap0 : rnodes.foldl
      (fun acc m => dictInsert acc m.id (HashV.hnode m)) [] =
      rnodes.map (fun m => (m.id, HashV.hnode m)) := by
    rw [buildNMap_eq rnodes [] hnd (by simp)]
    simp
  have hlwf : ∀ m ∈ rnodes.map
      (fun m => MerkleNode.mk (.hnode m) (some m.id) none none), WFM m := by
    intro m hm
    obtain ⟨x, hx, rfl⟩ := List.mem_map.mp hm
    exact WFM.leaf _ _
  have hlne : rnodes.map
      (fun m => MerkleNode.mk (.hnode m) (some m.id) none none) ≠ [] := by
    simpa using hne
  obtain ⟨rt, hrt, hwf, hocc⟩ := buildTree_spec _ hlne hlwf
  have hleaf : MerkleNode.mk (HashV.hnode n) (some n.id) none none ∈
      rnodes.map (fun m => MerkleNode.mk (.hnode m) (some m.id) none none) :=
    List.mem_map_of_mem _ hn
  have hocc_rt : occursIn n.id (.hnode n) rt = true := by
    refine hocc n.id (.hnode n) _ hleaf ?_
    rw [occursIn_leaf]
    simp
  have hflag : (findAndProve n.id (.hnode n) rt).1 = true := by
    rw [findAndProve_flag _ _ _ hwf]
    exact hocc_rt
  have hpair : findAndProve n.id (.hnode n) rt =
      (true, (findAndProve n.id (.hnode n) rt).2) := by
    conv_lhs => rw [show findAndProve n.id (.hnode n) rt =
      ((findAndProve n.id (.hnode n) rt).1,
       (findAndProve n.id (.hnode n) rt).2) from rfl]
    rw [hflag]
  have hfold := findAndProve_fold n.id (.hnode n) rt hwf _ hpair
  have htgt : dictGet (rnodes.map (fun m => (m.id, HashV.hnode m))) n.id =
      some (.hnode n) := dictGet_nodesMap rnodes hnd n hn
  have hgen : generateProofFrom
      (rnodes.map (fun m => (m.id, HashV.hnode m))) (some rt) n.id =
      (findAndProve n.id (.hnode n) rt).2 := by
    unfold generateProofFrom
    rw [htgt]
  unfold buildFromReasoningTree getProof
  simp only [hne', Bool.false_eq_true, if_false, hnmap0, hrt]
  rw [dictGet_proofmap, htgt]
  refine ⟨rfl, ?_⟩
  rw [hgen]
  unfold verifyProof
  rw [hfold]
  simp

/-- C9 counterexample: requesting a proof for an identifier absent from the
built tree returns `None` — not (as the claim states) an empty list. -/
theorem get_proof_unknown_counterexample :
    getProof (buildFromReasoningTree [fixNode "n0"]).1 "missing" = none
  ∧ (none : Option (List (HashV × String))) ≠ some [] := by
  constructor
  · rfl
  · intro h
    exact Option.noConfusion h

/-- C9 amended: for an identifier not among the built tree's node ids,
`get_proof` returns `None` (absent) — while the internal `_generate_proof`
yields the empty list — and proof verification is total: for every node,
proof and root it returns the boolean comparing the folded proof against the
expected root (it cannot throw). -/
theorem get_proof_unknown_absent (rnodes : List RNode) (nid : String)
    (hnid : nid ∉ rnodes.map RNode.id) :
    getProof (buildFromReasoningTree rnodes).1 nid = none
  ∧ generateProofFrom (buildFromReasoningTree rnodes).1.nodes
      (buildFromReasoningTree rnodes).1.root nid = []
  ∧ ∀ (nd : RNode) (proof : List (HashV × String)) (root : HashV),
      verifyProof nd proof root = decide (foldProof (.hnode nd) proof = root) := by
  cases he : rnodes.isEmpty with
  | true =>
      have hnil : rnodes = [] := List.isEmpty_iff.mp he
      subst hnil
      refine ⟨rfl, rfl, ?_⟩
      intro nd proof root
      rfl
  | false =>
      have hkeys : dictGet (rnodes.foldl
          (fun acc m => dictInsert acc m.id (HashV.hnode m)) []) nid = none := by
        rw [dictGet_eq_none_iff]
        intro hmem
        rcases (keys_buildNMap rnodes [] nid).mp hmem with h0 | h0
        · simp at h0
        · exact hnid h0
      constructor
      · unfold buildFromReasoningTree getProof
        simp only [he, Bool.false_eq_true, if_false]
        rw [dictGet_proofmap, hkeys]
        rfl
      constructor
      · unfold buildFromReasoningTree generateProofFrom
        simp only [he, Bool.false_eq_true, if_false]
        rw [hkeys]
      · intro nd proof root
        rfl

/-- Witness for C2 on the three-node tree of spec §8 scenario 5, verifying
node `n1`. -/
theorem merkle_build_verify_roundtrip_witness :
    (fixNodes3 ≠ [] ∧ (fixNodes3.map RNode.id).Nodup ∧ fixNode "n1" ∈ fixNodes3)
  ∧ (getProof (buildFromReasoningTree fixNodes3).1 (fixNode "n1").id =
      some (generateProofFrom (buildFromReasoningTree fixNodes3).1.nodes
        (buildFromReasoningTree fixNodes3).1.root (fixNode "n1").id)
    ∧ verifyProof (fixNode "n1")
        (generateProofFrom (buildFromReasoningTree fixNodes3).1.nodes
          (buildFromReasoningTree fixNodes3).1.root (fixNode "n1").id)
        (buildFromReasoningTree fixNodes3).2 = true) :=
  ⟨⟨by decide, by decide, by decide⟩,
   merkle_build_verify_roundtrip fixNodes3 (by decide) (by decide) _ (by decide)⟩

/-- Witness for the amended C9: the identifier "missing" is absent from a
single-node tree, so its proof is absent and verification stays boolean. -/
theorem get_proof_unknown_absent_witness :
    ("missing" ∉ [fixNode "n0"].map RNode.id)
  ∧ (getProof (buildFromReasoningTree [fixNode "n0"]).1 "missing" = none
    ∧ generateProofFrom (buildFromReasoningTree [fixNode "n0"]).1.nodes
        (buildFromReasoningTree [fixNode "n0"]).1.root "missing" = []
    ∧ ∀ (nd : RNode) (proof : List (HashV × String)) (root : HashV),
        verifyProof nd proof root = decide (foldProof (.hnode nd) proof = root)) :=
  ⟨by decide, get_proof_unknown_absent [fixNode "n0"] "missing" (by decide)⟩

end Dialectic
